import Mathlib

/-! Wizard-xp: the XP ledger of `src/index.js`.

A shallow embedding of the chat bot's in-memory ledger: the `users` table, the
`currentMonth` marker, the lazy monthly reset and the five command handlers
(`/start`, `/log`, `/xp`, `/monthly`, `/alltime`).

Modelling conventions.

* A plain JavaScript object is the list of its own properties in enumeration
  order. `users` is keyed by chat id, `dailyXP` by the text of `toDateString()`,
  and a day's object by category name.
* JavaScript numbers that hold XP are integers (`Int`); `NaN` is `none`.
* Every `new Date()` is an argument of the handler that reads it.
* `bot.sendMessage` is not modelled: a handler returns the data its message is
  built from.
-/

namespace WizardXp

/-! ## Configuration (`src/index.js`, lines 8-10) -/

/-- The fixed category list `CATEGORIES`. -/
def CATEGORIES : List String := ["Studies", "Workout", "Hobby", "Skill", "Work", "Bonus"]

/-- The per-category daily cap `DAILY_XP_LIMIT`. -/
def DAILY_XP_LIMIT : Int := 20

/-- The XP needed per level, `LEVEL_UP_XP`. -/
def LEVEL_UP_XP : Int := 500

/-! ## Plain objects -/

/-- Property read `o[k]`; `none` is `undefined`. -/
def objGet {κ ν : Type} [DecidableEq κ] (k : κ) : List (κ × ν) → Option ν
  | [] => none
  | (k', v) :: rest => if k' = k then some v else objGet k rest

/-- Property write `o[k] = v` for a key that is not an array index: a key that
exists keeps its place, a new key is enumerated last. -/
def objSet {κ ν : Type} [DecidableEq κ] (k : κ) (v : ν) : List (κ × ν) → List (κ × ν)
  | [] => [(k, v)]
  | (k', v') :: rest => if k' = k then (k, v) :: rest else (k', v') :: objSet k v rest

/-- In-place change of the object stored under `k` (as in `o[k].field = x`);
nothing happens when `k` is absent. -/
def objModify {κ ν : Type} [DecidableEq κ] (k : κ) (f : ν → ν) : List (κ × ν) → List (κ × ν)
  | [] => []
  | (k', v) :: rest => if k' = k then (k', f v) :: rest else (k', v) :: objModify k f rest

/-! ## Strings: `trim`, `toLowerCase`, `parseInt` -/

/-- White space and line terminators, the characters removed by `trim` and
skipped by `parseInt`: TAB, LF, VT, FF, CR, SP, NBSP, U+1680, U+2000..U+200A,
U+2028, U+2029, U+202F, U+205F, U+3000, U+FEFF. -/
def isStrWhiteSpaceChar (c : Char) : Bool :=
  let n := c.toNat
  n = 9 || n = 10 || n = 11 || n = 12 || n = 13 || n = 32 || n = 160 || n = 5760 ||
  (8192 ≤ n && n ≤ 8202) || n = 8232 || n = 8233 || n = 8239 || n = 8287 || n = 12288 ||
  n = 65279

/-- The method `String.prototype.trim`. -/
def jsTrim (s : String) : String :=
  String.mk (((s.data.dropWhile isStrWhiteSpaceChar).reverse.dropWhile isStrWhiteSpaceChar).reverse)

/-- Lower-case form of one character. ASCII capitals, the Kelvin sign U+212A
(whose lower case is the ASCII `k`) and U+0130 (lower case `i` followed by
U+0307) are mapped as Unicode prescribes. Every other character is kept: its
Unicode lower case, where it differs, is again outside ASCII, so a comparison
with the lower-cased category names, which are ASCII, comes out the same. -/
def toLowerCaseChar (c : Char) : List Char :=
  if 65 ≤ c.toNat ∧ c.toNat ≤ 90 then [Char.ofNat (c.toNat + 32)]
  else if c.toNat = 8490 then [Char.ofNat 107]
  else if c.toNat = 304 then [Char.ofNat 105, Char.ofNat 775]
  else [c]

/-- The method `String.prototype.toLowerCase`, see `toLowerCaseChar`. -/
def toLowerCase (s : String) : String :=
  String.mk (s.data.flatMap toLowerCaseChar)

/-- Value of a character as a digit in the given radix (10 or 16), if it is one. -/
def digitValue (radix : Nat) (c : Char) : Option Nat :=
  let n := c.toNat
  if 48 ≤ n ∧ n ≤ 57 then some (n - 48)
  else if radix = 16 ∧ 97 ≤ n ∧ n ≤ 102 then some (n - 87)
  else if radix = 16 ∧ 65 ≤ n ∧ n ≤ 70 then some (n - 55)
  else none

/-- Reads the longest run of digits at the front of `cs`: the number read so far
is `acc`, and `seen` tells whether a digit has been read. No digit gives `none`. -/
def parseDigits (radix : Nat) : List Char → Nat → Bool → Option Nat
  | [], acc, seen => if seen then some acc else none
  | c :: cs, acc, seen =>
    match digitValue radix c with
    | some d => parseDigits radix cs (acc * radix + d) true
    | none => if seen then some acc else none

/-- The digits of `parseInt` after the sign: a `0x` or `0X` start selects radix 16. -/
def parseMagnitude : List Char → Option Nat
  | '0' :: 'x' :: cs => parseDigits 16 cs 0 false
  | '0' :: 'X' :: cs => parseDigits 16 cs 0 false
  | cs => parseDigits 10 cs 0 false

/-- The global function `parseInt(string)` with no radix argument; `none` is `NaN`.
Leading white space is skipped, one sign is read, then the longest run of
digits; what follows the digits is ignored. The value is exact here, whereas
JavaScript rounds beyond 2^53: such values are far above the daily cap and are
rejected either way. -/
def parseInt (s : String) : Option Int :=
  match s.data.dropWhile isStrWhiteSpaceChar with
  | '-' :: cs => (parseMagnitude cs).map (fun n => - (n : Int))
  | '+' :: cs => (parseMagnitude cs).map (fun n => (n : Int))
  | cs => (parseMagnitude cs).map (fun n => (n : Int))

/-! ## Dates -/

/-- The local-time fields of a `Date` that the program reads. -/
structure Date where
  /-- Result of `getFullYear()`. -/
  fullYear : Nat
  /-- Result of `getMonth()`, 0 for January to 11 for December. -/
  month : Nat
  /-- Result of `getDate()`, the day of the month. -/
  date : Nat
  /-- Result of `getDay()`, 0 for Sunday to 6 for Saturday. -/
  day : Nat
deriving DecidableEq, Repr

/-- Three-letter weekday names used by `toDateString`. -/
def dayNames : List String := ["Sun", "Mon", "Tue", "Wed", "Thu", "Fri", "Sat"]

/-- Three-letter month names used by `toDateString`. -/
def monthNames : List String :=
  ["Jan", "Feb", "Mar", "Apr", "May", "Jun", "Jul", "Aug", "Sep", "Oct", "Nov", "Dec"]

/-- Decimal digits of `n`, least significant first, at least `width` of them. -/
def revDigits : Nat → Nat → Nat → List Char
  | 0, _, _ => []
  | fuel + 1, width, n =>
    if n < 10 ∧ width ≤ 1 then [Char.ofNat (48 + n)]
    else Char.ofNat (48 + n % 10) :: revDigits fuel (width - 1) (n / 10)

/-- Decimal text of `n`, zero-padded on the left to `width` digits. -/
def padNat (width n : Nat) : String :=
  String.mk (revDigits (n + width + 1) width n).reverse

/-- The method `Date.prototype.getMonth`. -/
def Date.getMonth (d : Date) : Nat := d.month

/-- The method `Date.prototype.toDateString`, for example `Wed Nov 04 2026`. -/
def Date.toDateString (d : Date) : String :=
  dayNames.getD d.day "" ++ " " ++ monthNames.getD d.month "" ++ " " ++
    padNat 2 d.date ++ " " ++ padNat 4 d.fullYear

/-! ## The ledger -/

/-- One entry of `users`. -/
structure UserRecord where
  totalXP : Int
  monthlyXP : Int
  /-- Day key, then category, then XP logged. -/
  dailyXP : List (String × List (String × Int))
  username : String
deriving DecidableEq, Repr

/-- The process-wide state: `users` and `currentMonth`. -/
structure Store where
  users : List (Int × UserRecord)
  currentMonth : Nat
deriving DecidableEq, Repr

/-- The field `msg.from`; an absent field is `none`. -/
structure From where
  username : Option String
  first_name : Option String
  last_name : Option String
deriving DecidableEq, Repr

/-- The parts of a Telegram message that the handlers read: `msg.chat.id` and
`msg.from`. -/
structure Message where
  chatId : Int
  sender : From
deriving DecidableEq, Repr

/-- The state at process start: no users, the marker set to the month then. -/
def initStore (startup : Date) : Store :=
  { users := [], currentMonth := startup.getMonth }

/-- Whether a property key is an array index (0 to 2^32 - 2): such keys are
enumerated first, in ascending order. -/
def isArrayIndex (k : Int) : Bool := decide (0 ≤ k) && decide (k < 4294967295)

/-- Creation of `users[id]` for an id that has no entry: an array index goes
to its place among the array indices, any other key goes last. -/
def usersCreate (id : Int) (r : UserRecord) : List (Int × UserRecord) → List (Int × UserRecord)
  | [] => [(id, r)]
  | (k, v) :: rest =>
    if isArrayIndex id && (!isArrayIndex k || decide (id < k)) then (id, r) :: (k, v) :: rest
    else (k, v) :: usersCreate id r rest

/-- Truthiness of an optional string: absent and empty strings are falsy. -/
def truthy : Option String → Option String
  | some s => if s = "" then none else some s
  | none => none

/-- The helper `getUsername` (lines 30-31). -/
def getUsername (sender : From) : String :=
  match truthy sender.username with
  | some u => u
  | none =>
    let joined := " ".intercalate ([sender.first_name, sender.last_name].filterMap truthy)
    if joined = "" then "Anonymous" else joined

/-- The record literal of lines 58-63 and 104-109. -/
def newUser (sender : From) : UserRecord :=
  { totalXP := 0, monthlyXP := 0, dailyXP := [], username := getUsername sender }

/-- The helper `checkMonthlyReset` (lines 33-42); `now` is its `new Date()`. -/
def checkMonthlyReset (now : Date) (s : Store) : Store :=
  if now.getMonth ≠ s.currentMonth then
    { users := s.users.map (fun e => (e.1, { e.2 with monthlyXP := 0, dailyXP := [] })),
      currentMonth := now.getMonth }
  else s

/-- The `/start` handler (lines 55-79). -/
def start (msg : Message) (s : Store) : Store :=
  if (objGet msg.chatId s.users).isNone then
    { s with users := usersCreate msg.chatId (newUser msg.sender) s.users }
  else s

/-- The expression `Math.floor(totalXP / LEVEL_UP_XP)` of lines 127, 144 and 189. -/
def level (totalXP : Int) : Int := Int.fdiv totalXP LEVEL_UP_XP

/-- The lookup of lines 90-92: the first category whose lower case is that of
the input. -/
def findCategory (inputCategory : String) : Option String :=
  CATEGORIES.find? (fun c => decide (toLowerCase c = toLowerCase inputCategory))

/-- The read `dailyXP[day][category] || 0`, with 0 as well when the day has no
entry. -/
def usage (dailyXP : List (String × List (String × Int))) (day category : String) : Int :=
  match objGet day dailyXP with
  | some perCategory => (objGet category perCategory).getD 0
  | none => 0

/-- The three errors thrown in the `/log` handler, each with the values its
message is built from. -/
inductive LogError where
  /-- Line 95, with the category list shown in the message. -/
  | invalidCategory (valid : List String)
  /-- Line 99. -/
  | invalidAmount
  /-- Line 118, with the category, the limit and the XP already logged. -/
  | dailyLimit (category : String) (limit : Int) (already : Int)
deriving DecidableEq, Repr

deriving instance DecidableEq for Except

/-- The values shown in the success message of the `/log` handler. -/
structure LogReply where
  xp : Int
  category : String
  monthlyXP : Int
  totalXP : Int
  level : Int
deriving DecidableEq, Repr

/-- Line 114 on one record: the entry of today is created empty when absent. -/
def ensureDay (today : String) (u : UserRecord) : UserRecord :=
  { u with dailyXP := objSet today ((objGet today u.dailyXP).getD []) u.dailyXP }

/-- Lines 122-124 on one record whose entry of today exists. -/
def addXP (today category : String) (dailyXP xp : Int) (u : UserRecord) : UserRecord :=
  { u with
    totalXP := u.totalXP + xp
    monthlyXP := u.monthlyXP + xp
    dailyXP := objModify today (objSet category (dailyXP + xp)) u.dailyXP }

/-- Lines 103-110: `users` once the sender has a record, and that record. -/
def ensureUser (msg : Message) (users : List (Int × UserRecord)) :
    List (Int × UserRecord) × UserRecord :=
  match objGet msg.chatId users with
  | some u => (users, u)
  | none => (usersCreate msg.chatId (newUser msg.sender) users, newUser msg.sender)

/-- The `/log` handler (lines 82-138). `now` is the `new Date()` read by
`checkMonthlyReset`, `today` the one of line 113, and `match1`, `match2` are the
two groups of the command pattern. The result is the state left behind and
either the thrown error or the reply. In `entry` the second component is the
record that `users[chatId]` holds once line 110 is passed. -/
def logXP (now today : Date) (msg : Message) (match1 match2 : String) (s : Store) :
    Store × Except LogError LogReply :=
  let s1 := checkMonthlyReset now s
  let chatId := msg.chatId
  let inputCategory := jsTrim match1
  match findCategory inputCategory with
  | none => (s1, .error (.invalidCategory CATEGORIES))
  | some category =>
    match parseInt match2 with
    | none => (s1, .error .invalidAmount)
    | some xp =>
      if xp ≤ 0 then (s1, .error .invalidAmount)
      else
        let entry := ensureUser msg s1.users
        let todayKey := today.toDateString
        let users2 := objModify chatId (ensureDay todayKey) entry.1
        let u2 := ensureDay todayKey entry.2
        let dailyXP := usage u2.dailyXP todayKey category
        if dailyXP + xp > DAILY_XP_LIMIT then
          ({ s1 with users := users2 }, .error (.dailyLimit category DAILY_XP_LIMIT dailyXP))
        else
          let users3 := objModify chatId (addXP todayKey category dailyXP xp) users2
          let u3 := addXP todayKey category dailyXP xp u2
          ({ s1 with users := users3 },
            .ok { xp := xp, category := category, monthlyXP := u3.monthlyXP,
                  totalXP := u3.totalXP, level := level u3.totalXP })

/-- The state a `/log` call leaves when the daily limit stops it: the reset
check, the record of the sender, the entry of today. -/
def afterLimitCheck (now today : Date) (msg : Message) (s : Store) : Store :=
  { checkMonthlyReset now s with
    users := objModify msg.chatId (ensureDay today.toDateString)
      (ensureUser msg (checkMonthlyReset now s).users).1 }

/-- The record of the sender once the reset check has run and line 110 is
passed: the one found in `users`, or the fresh one. -/
def recordAfterReset (now : Date) (msg : Message) (s : Store) : UserRecord :=
  (ensureUser msg (checkMonthlyReset now s).users).2

/-- The record of the sender when the daily limit is checked. -/
def recordAtCheck (now today : Date) (msg : Message) (s : Store) : UserRecord :=
  ensureDay today.toDateString (recordAfterReset now msg s)

/-- The XP already logged today in a category, as line 115 reads it. -/
def usedToday (now today : Date) (msg : Message) (category : String) (s : Store) : Int :=
  usage (recordAtCheck now today msg s).dailyXP today.toDateString category

/-- The state and reply of a `/log` call whose amount fits under the cap. -/
def successOutcome (now today : Date) (msg : Message) (category : String) (xp : Int)
    (s : Store) : Store × Except LogError LogReply :=
  ({ afterLimitCheck now today msg s with
      users := objModify msg.chatId
        (addXP today.toDateString category (usedToday now today msg category s) xp)
        (afterLimitCheck now today msg s).users },
    .ok { xp := xp, category := category,
          monthlyXP := (recordAtCheck now today msg s).monthlyXP + xp,
          totalXP := (recordAtCheck now today msg s).totalXP + xp,
          level := level ((recordAtCheck now today msg s).totalXP + xp) })

/-- The values shown by the `/xp` handler. -/
structure Progress where
  monthlyXP : Int
  totalXP : Int
  level : Int
deriving DecidableEq, Repr

/-- The `/xp` handler (lines 141-154): the state is not touched. -/
def getProgress (msg : Message) (s : Store) : Store × Progress :=
  match objGet msg.chatId s.users with
  | some u => (s, { monthlyXP := u.monthlyXP, totalXP := u.totalXP, level := level u.totalXP })
  | none => (s, { monthlyXP := 0, totalXP := 0, level := level 0 })

/-- The method `Array.prototype.sort` with a comparator: a stable sort, in
which `a` stays before a later `b` unless `cmp a b` is positive. -/
def jsSort {α : Type} (cmp : α → α → Int) (xs : List α) : List α :=
  xs.insertionSort (fun a b => cmp a b ≤ 0)

/-- Lines 159-162 applied to the entries of `users`: each entry stands for the
record object that `Object.values` yields, kept with its chat id. -/
def sortedMonthly (users : List (Int × UserRecord)) : List (Int × UserRecord) :=
  (jsSort (fun a b => b.2.monthlyXP - a.2.monthlyXP)
    (users.filter (fun e => decide (e.2.monthlyXP > 0)))).take 10

/-- Lines 178-181 applied to the entries of `users`. -/
def sortedAllTime (users : List (Int × UserRecord)) : List (Int × UserRecord) :=
  (jsSort (fun a b => b.2.totalXP - a.2.totalXP)
    (users.filter (fun e => decide (e.2.totalXP > 0)))).take 10

/-- The `/monthly` handler (lines 157-174): the reset check, then the ranking.
An empty ranking is the case of the message of line 165. -/
def monthlyLeaderboard (now : Date) (s : Store) : Store × List (Int × UserRecord) :=
  let s1 := checkMonthlyReset now s
  (s1, sortedMonthly s1.users)

/-- One line of the all-time board: name, total XP and level (line 190). -/
structure AllTimeRow where
  username : String
  totalXP : Int
  level : Int
deriving DecidableEq, Repr

/-- The `/alltime` handler (lines 177-194): the ranking, with no reset check.
An empty ranking is the case of the message of line 184. -/
def allTimeLeaderboard (s : Store) : Store × List (Int × UserRecord) :=
  (s, sortedAllTime s.users)

/-- The rows written by lines 188-191. -/
def allTimeRows (sorted : List (Int × UserRecord)) : List AllTimeRow :=
  sorted.map (fun e => { username := e.2.username, totalXP := e.2.totalXP,
                         level := level e.2.totalXP })

/-- The rows written by lines 169-171: name and monthly XP. -/
def monthlyRows (sorted : List (Int × UserRecord)) : List (String × Int) :=
  sorted.map (fun e => (e.2.username, e.2.monthlyXP))

/-! ## Runs of the bot -/

/-- One handled command, with the clock readings and message it comes with. -/
inductive Op where
  | start (msg : Message)
  | logXP (now today : Date) (msg : Message) (match1 match2 : String)
  | getProgress (msg : Message)
  | monthlyLeaderboard (now : Date)
  | allTimeLeaderboard

/-- The state after one handled command. -/
def step (s : Store) : Op → Store
  | .start msg => start msg s
  | .logXP now today msg match1 match2 => (logXP now today msg match1 match2 s).1
  | .getProgress msg => (getProgress msg s).1
  | .monthlyLeaderboard now => (monthlyLeaderboard now s).1
  | .allTimeLeaderboard => (allTimeLeaderboard s).1

/-- The state after a sequence of commands, handled one at a time. -/
def run (s : Store) (ops : List Op) : Store := ops.foldl step s

/-- States the bot can be in: started in some month, then any commands. -/
def Reachable (s : Store) : Prop := ∃ startup ops, s = run (initStore startup) ops

/-- Every record of the table respects the daily cap, on every day and in
every category. -/
def CapHolds (users : List (Int × UserRecord)) : Prop :=
  ∀ e ∈ users, ∀ d c, usage e.2.dailyXP d c ≤ DAILY_XP_LIMIT

/-- A clock reading used in the examples: Wednesday 4 November 2026. -/
def nov4 : Date := { fullYear := 2026, month := 10, date := 4, day := 3 }

/-- A clock reading used in the examples: Tuesday 1 December 2026. -/
def dec1 : Date := { fullYear := 2026, month := 11, date := 1, day := 2 }

/-- A message from chat 1, sent by the handle `ann`. -/
def annMsg : Message :=
  { chatId := 1, sender := { username := some "ann", first_name := none, last_name := none } }

/-- A store in November with one record: 50 XP this month, 120 in total, 15 of
them logged as Workout on 4 November. -/
def novStore : Store :=
  { users := [(1, { totalXP := 120, monthlyXP := 50,
                    dailyXP := [("Wed Nov 04 2026", [("Workout", 15)])], username := "ann" })],
    currentMonth := 10 }

/-- A store in November whose only record is fresh, as `/start` leaves it. -/
def freshStore : Store :=
  { users := [(1, { totalXP := 0, monthlyXP := 0, dailyXP := [], username := "ann" })],
    currentMonth := 10 }

/-- A table of four users whose monthly XP are 30, 10, 30 and 0, in this order. -/
def fourUsers : List (Int × UserRecord) :=
  [(1, { totalXP := 30, monthlyXP := 30, dailyXP := [], username := "ann" }),
   (2, { totalXP := 10, monthlyXP := 10, dailyXP := [], username := "bob" }),
   (3, { totalXP := 30, monthlyXP := 30, dailyXP := [], username := "cy" }),
   (4, { totalXP := 0, monthlyXP := 0, dailyXP := [], username := "dee" })]

/-- A table of fifteen users, chat ids 1 to 15, user `i` holding `i` XP in
total and this month. -/
def fifteenUsers : List (Int × UserRecord) :=
  (List.range 15).map (fun i =>
    ((i : Int) + 1,
      { totalXP := (i : Int) + 1, monthlyXP := (i : Int) + 1, dailyXP := [], username := "u" }))

/-- The fields of a date are in the ranges of the calendar. -/
def Date.wellFormed (d : Date) : Prop :=
  d.month < 12 ∧ 1 ≤ d.date ∧ d.date ≤ 31 ∧ d.day < 7

/-- Two instants lie in the same calendar month: same year, same month. -/
def sameCalendarMonth (a b : Date) : Prop :=
  a.fullYear = b.fullYear ∧ a.month = b.month

/-- Two instants lie in the same calendar day: same year, month and day. -/
def sameCalendarDay (a b : Date) : Prop :=
  a.fullYear = b.fullYear ∧ a.month = b.month ∧ a.date = b.date

/-- A clock reading used in the examples: Thursday 4 November 2027. -/
def nov4NextYear : Date := { fullYear := 2027, month := 10, date := 4, day := 4 }

/-- Value of a list of decimal digits, least significant first. -/
def revValue : List Char → Nat
  | [] => 0
  | c :: cs => (c.toNat - 48) + 10 * revValue cs

/-- The record the monthly reset makes of a record (lines 38-39). -/
def resetRecord (u : UserRecord) : UserRecord :=
  { u with monthlyXP := 0, dailyXP := [] }

/-- The chat ids of the table are pairwise distinct, as the keys of an object are. -/
def KeysDistinct (users : List (Int × UserRecord)) : Prop :=
  (users.map Prod.fst).Nodup

/-- The XP of one day: the sum over the categories of its object. -/
def categorySum (perCategory : List (String × Int)) : Int :=
  (perCategory.map Prod.snd).sum

/-- The XP held in `dailyXP`: the sum over all its days and categories. -/
def dailySum (dailyXP : List (String × List (String × Int))) : Int :=
  (dailyXP.map (fun e => categorySum e.2)).sum

/-- The keys of `dailyXP` and of each of its days are pairwise distinct, so
that the entries listed are exactly the readings `dailyXP[d][c]` of the keys
present. -/
def DailyKeysDistinct (dailyXP : List (String × List (String × Int))) : Prop :=
  (dailyXP.map Prod.fst).Nodup ∧ ∀ e ∈ dailyXP, (e.2.map Prod.fst).Nodup

/-- The store reached from the start on 4 November 2026 by one `/log Workout 15`. -/
def loggedStore : Store :=
  run (initStore nov4) [Op.logXP nov4 nov4 annMsg "Workout" "15"]

/-! ## Lemmas on plain objects -/

theorem objGet_objSet_self {κ ν : Type} [DecidableEq κ] (k : κ) (v : ν) (o : List (κ × ν)) :
    objGet k (objSet k v o) = some v := by
  induction o with
  | nil => simp [objSet, objGet]
  | cons e rest ih =>
    obtain ⟨k', v'⟩ := e
    by_cases h : k' = k <;> simp [objSet, objGet, h, ih]

theorem objGet_objSet_ne {κ ν : Type} [DecidableEq κ] {k j : κ} (h : k ≠ j) (v : ν)
    (o : List (κ × ν)) : objGet j (objSet k v o) = objGet j o := by
  induction o with
  | nil => simp [objSet, objGet, h]
  | cons e rest ih =>
    obtain ⟨k', v'⟩ := e
    by_cases h1 : k' = k
    · subst h1; simp [objSet, objGet, h]
    · by_cases h2 : k' = j
      · subst h2; simp [objSet, objGet, h1]
      · simp [objSet, objGet, h1, h2, ih]

theorem objGet_objModify_self {κ ν : Type} [DecidableEq κ] (k : κ) (f : ν → ν)
    (o : List (κ × ν)) : objGet k (objModify k f o) = (objGet k o).map f := by
  induction o with
  | nil => simp [objModify, objGet]
  | cons e rest ih =>
    obtain ⟨k', v'⟩ := e
    by_cases h : k' = k <;> simp [objModify, objGet, h, ih]

theorem objGet_objModify_ne {κ ν : Type} [DecidableEq κ] {k j : κ} (h : k ≠ j) (f : ν → ν)
    (o : List (κ × ν)) : objGet j (objModify k f o) = objGet j o := by
  induction o with
  | nil => simp [objModify, objGet]
  | cons e rest ih =>
    obtain ⟨k', v'⟩ := e
    by_cases h1 : k' = k
    · subst h1; simp [objModify, objGet, h]
    · by_cases h2 : k' = j
      · subst h2; simp [objModify, objGet, h1]
      · simp [objModify, objGet, h1, h2, ih]

theorem mem_objModify {κ ν : Type} [DecidableEq κ] {k : κ} {f : ν → ν} {o : List (κ × ν)}
    {e : κ × ν} (h : e ∈ objModify k f o) :
    e ∈ o ∨ ∃ v, objGet k o = some v ∧ e = (k, f v) := by
  induction o with
  | nil => simp [objModify] at h
  | cons e0 rest ih =>
    obtain ⟨k', v'⟩ := e0
    by_cases h1 : k' = k
    · subst h1
      simp only [objModify, if_true, List.mem_cons] at h
      rcases h with h | h
      · exact Or.inr ⟨v', by simp [objGet], h⟩
      · exact Or.inl (by simp [h])
    · simp only [objModify, h1, if_false, List.mem_cons] at h
      rcases h with h | h
      · exact Or.inl (by simp [h])
      · rcases ih h with h2 | ⟨v, hv, he⟩
        · exact Or.inl (by simp [h2])
        · exact Or.inr ⟨v, by simp [objGet, h1, hv], he⟩

theorem map_fst_objModify {κ ν : Type} [DecidableEq κ] (k : κ) (f : ν → ν) (o : List (κ × ν)) :
    (objModify k f o).map Prod.fst = o.map Prod.fst := by
  induction o with
  | nil => simp [objModify]
  | cons e rest ih =>
    obtain ⟨k', v'⟩ := e
    by_cases h : k' = k <;> simp [objModify, h, ih]

theorem objGet_map_snd {κ ν : Type} [DecidableEq κ] (k : κ) (g : ν → ν) (o : List (κ × ν)) :
    objGet k (o.map (fun e => (e.1, g e.2))) = (objGet k o).map g := by
  induction o with
  | nil => simp [objGet]
  | cons e rest ih =>
    obtain ⟨k', v'⟩ := e
    by_cases h : k' = k <;> simp [objGet, h, ih]

theorem objGet_mem {κ ν : Type} [DecidableEq κ] {k : κ} {v : ν} {o : List (κ × ν)}
    (h : objGet k o = some v) : (k, v) ∈ o := by
  induction o with
  | nil => simp [objGet] at h
  | cons e rest ih =>
    obtain ⟨k', v'⟩ := e
    by_cases h1 : k' = k
    · subst h1
      simp [objGet] at h
      simp [h]
    · simp [objGet, h1] at h
      simp [ih h]

theorem mem_usersCreate {id : Int} {r : UserRecord} {users : List (Int × UserRecord)}
    {e : Int × UserRecord} : e ∈ usersCreate id r users ↔ e = (id, r) ∨ e ∈ users := by
  induction users with
  | nil => simp [usersCreate]
  | cons e0 rest ih =>
    obtain ⟨k, v⟩ := e0
    simp only [usersCreate]
    split
    · simp
    · simp only [List.mem_cons, ih]
      tauto

theorem objGet_usersCreate_self {id : Int} (r : UserRecord) {users : List (Int × UserRecord)}
    (h : objGet id users = none) : objGet id (usersCreate id r users) = some r := by
  induction users with
  | nil => simp [usersCreate, objGet]
  | cons e0 rest ih =>
    obtain ⟨k, v⟩ := e0
    by_cases h1 : k = id
    · simp [objGet, h1] at h
    · simp only [objGet, h1, if_false] at h
      simp only [usersCreate]
      split
      · simp [objGet]
      · simp [objGet, h1, ih h]

theorem objGet_usersCreate_ne {id j : Int} (hne : id ≠ j) (r : UserRecord)
    (users : List (Int × UserRecord)) : objGet j (usersCreate id r users) = objGet j users := by
  induction users with
  | nil => simp [usersCreate, objGet, hne]
  | cons e0 rest ih =>
    obtain ⟨k, v⟩ := e0
    simp only [usersCreate]
    split
    · simp [objGet, hne]
    · by_cases h2 : k = j <;> simp [objGet, h2, ih]

theorem objSet_of_objGet {κ ν : Type} [DecidableEq κ] {k : κ} {v : ν} {o : List (κ × ν)}
    (h : objGet k o = some v) : objSet k v o = o := by
  induction o with
  | nil => simp [objGet] at h
  | cons e rest ih =>
    obtain ⟨k', v'⟩ := e
    by_cases h1 : k' = k
    · subst h1
      simp [objGet] at h
      simp [objSet, h]
    · simp only [objGet, h1, if_false] at h
      simp [objSet, h1, ih h]

/-! ## Lemmas on the daily usage of one record -/

theorem usage_nil (d c : String) : usage [] d c = 0 := by
  simp [usage, objGet]

theorem objGet_ensureDay (t : String) (u : UserRecord) :
    objGet t (ensureDay t u).dailyXP = some ((objGet t u.dailyXP).getD []) := by
  simp [ensureDay, objGet_objSet_self]

theorem usage_ensureDay (t : String) (u : UserRecord) (d c : String) :
    usage (ensureDay t u).dailyXP d c = usage u.dailyXP d c := by
  by_cases h : t = d
  · subst h
    simp only [usage, objGet_ensureDay]
    cases hg : objGet t u.dailyXP <;> simp [objGet]
  · simp [usage, ensureDay, objGet_objSet_ne h]

theorem usage_addXP {t : String} {u : UserRecord} {p : List (String × Int)}
    (h : objGet t u.dailyXP = some p) (cat : String) (dx xp : Int) (d c : String) :
    usage (addXP t cat dx xp u).dailyXP d c
      = if d = t ∧ c = cat then dx + xp else usage u.dailyXP d c := by
  by_cases h1 : t = d
  · subst h1
    simp only [usage, addXP, objGet_objModify_self, h, Option.map_some', true_and]
    by_cases h2 : cat = c
    · subst h2; simp [objGet_objSet_self]
    · have h3 : ¬ c = cat := fun e => h2 e.symm
      simp [objGet_objSet_ne h2, h3]
  · have h3 : ¬ d = t := fun e => h1 e.symm
    simp [usage, addXP, objGet_objModify_ne h1, h3]

theorem ensureDay_fields (t : String) (u : UserRecord) :
    (ensureDay t u).totalXP = u.totalXP ∧ (ensureDay t u).monthlyXP = u.monthlyXP ∧
      (ensureDay t u).username = u.username := by
  simp [ensureDay]

theorem objGet_ensureUser (msg : Message) (users : List (Int × UserRecord)) :
    objGet msg.chatId (ensureUser msg users).1 = some (ensureUser msg users).2 := by
  unfold ensureUser
  cases h : objGet msg.chatId users with
  | none => simpa using objGet_usersCreate_self _ h
  | some u => simpa using h

theorem objGet_ensureUser_ne (msg : Message) (users : List (Int × UserRecord)) {j : Int}
    (h : msg.chatId ≠ j) : objGet j (ensureUser msg users).1 = objGet j users := by
  unfold ensureUser
  cases hg : objGet msg.chatId users with
  | none => simpa using objGet_usersCreate_ne h _ _
  | some u => rfl

theorem mem_ensureUser {msg : Message} {users : List (Int × UserRecord)} {e : Int × UserRecord}
    (h : e ∈ (ensureUser msg users).1) : e ∈ users ∨ e = (msg.chatId, newUser msg.sender) := by
  unfold ensureUser at h
  cases hg : objGet msg.chatId users with
  | none =>
    rw [hg] at h
    rcases mem_usersCreate.mp h with h1 | h1
    · exact Or.inr h1
    · exact Or.inl h1
  | some u =>
    rw [hg] at h
    exact Or.inl h

/-! ## The shape of a `/log` call -/

theorem usage_recordAtCheck (now today : Date) (msg : Message) (s : Store) (d c : String) :
    usage (recordAtCheck now today msg s).dailyXP d c
      = usage (recordAfterReset now msg s).dailyXP d c :=
  usage_ensureDay _ _ _ _

theorem usage_addXP_recordAtCheck (now today : Date) (msg : Message) (s : Store)
    (cat : String) (dx xp : Int) (d c : String) :
    usage (addXP today.toDateString cat dx xp (recordAtCheck now today msg s)).dailyXP d c
      = if d = today.toDateString ∧ c = cat then dx + xp
        else usage (recordAfterReset now msg s).dailyXP d c := by
  rw [← usage_recordAtCheck now today msg s d c]
  exact usage_addXP (objGet_ensureDay today.toDateString (recordAfterReset now msg s)) _ _ _ _ _

theorem logXP_of_noCategory (now today : Date) (msg : Message) (match1 match2 : String)
    (s : Store) (hc : findCategory (jsTrim match1) = none) :
    logXP now today msg match1 match2 s
      = (checkMonthlyReset now s, .error (.invalidCategory CATEGORIES)) := by
  simp [logXP, hc]

theorem logXP_of_nan (now today : Date) (msg : Message) (match1 match2 : String)
    (s : Store) {category : String} (hc : findCategory (jsTrim match1) = some category)
    (hx : parseInt match2 = none) :
    logXP now today msg match1 match2 s = (checkMonthlyReset now s, .error .invalidAmount) := by
  simp [logXP, hc, hx]

theorem logXP_of_nonpos (now today : Date) (msg : Message) (match1 match2 : String)
    (s : Store) {category : String} {xp : Int}
    (hc : findCategory (jsTrim match1) = some category)
    (hx : parseInt match2 = some xp) (hle : xp ≤ 0) :
    logXP now today msg match1 match2 s = (checkMonthlyReset now s, .error .invalidAmount) := by
  simp [logXP, hc, hx, hle]

theorem logXP_of_over (now today : Date) (msg : Message) (match1 match2 : String)
    (s : Store) {category : String} {xp : Int}
    (hc : findCategory (jsTrim match1) = some category)
    (hx : parseInt match2 = some xp) (hpos : 0 < xp)
    (hover : usedToday now today msg category s + xp > DAILY_XP_LIMIT) :
    logXP now today msg match1 match2 s
      = (afterLimitCheck now today msg s,
          .error (.dailyLimit category DAILY_XP_LIMIT (usedToday now today msg category s))) := by
  have h1 : ¬ xp ≤ 0 := not_le.mpr hpos
  simp only [usedToday, recordAtCheck, recordAfterReset] at hover
  simp [logXP, hc, hx, h1, hover, afterLimitCheck, usedToday, recordAtCheck, recordAfterReset]

theorem logXP_of_fits (now today : Date) (msg : Message) (match1 match2 : String)
    (s : Store) {category : String} {xp : Int}
    (hc : findCategory (jsTrim match1) = some category)
    (hx : parseInt match2 = some xp) (hpos : 0 < xp)
    (hfit : usedToday now today msg category s + xp ≤ DAILY_XP_LIMIT) :
    logXP now today msg match1 match2 s
      = ({ afterLimitCheck now today msg s with
            users := objModify msg.chatId
              (addXP today.toDateString category (usedToday now today msg category s) xp)
              (afterLimitCheck now today msg s).users },
          .ok { xp := xp, category := category,
                monthlyXP := (recordAtCheck now today msg s).monthlyXP + xp,
                totalXP := (recordAtCheck now today msg s).totalXP + xp,
                level := level ((recordAtCheck now today msg s).totalXP + xp) }) := by
  have h1 : ¬ xp ≤ 0 := not_le.mpr hpos
  have h2 : ¬ usedToday now today msg category s + xp > DAILY_XP_LIMIT := not_lt.mpr hfit
  simp only [usedToday, recordAtCheck, recordAfterReset] at h2
  simp [logXP, hc, hx, h1, h2, afterLimitCheck, usedToday, recordAtCheck, recordAfterReset,
    addXP]

theorem logXP_cases (now today : Date) (msg : Message) (match1 match2 : String) (s : Store) :
    (findCategory (jsTrim match1) = none ∧
      logXP now today msg match1 match2 s
        = (checkMonthlyReset now s, .error (.invalidCategory CATEGORIES))) ∨
    ((∃ category, findCategory (jsTrim match1) = some category) ∧
      (parseInt match2 = none ∨ ∃ xp, parseInt match2 = some xp ∧ xp ≤ 0) ∧
      logXP now today msg match1 match2 s = (checkMonthlyReset now s, .error .invalidAmount)) ∨
    (∃ category xp, findCategory (jsTrim match1) = some category ∧
      parseInt match2 = some xp ∧ 0 < xp ∧
      usedToday now today msg category s + xp > DAILY_XP_LIMIT ∧
      logXP now today msg match1 match2 s
        = (afterLimitCheck now today msg s,
            .error (.dailyLimit category DAILY_XP_LIMIT
              (usedToday now today msg category s)))) ∨
    (∃ category xp, findCategory (jsTrim match1) = some category ∧
      parseInt match2 = some xp ∧ 0 < xp ∧
      usedToday now today msg category s + xp ≤ DAILY_XP_LIMIT ∧
      logXP now today msg match1 match2 s = successOutcome now today msg category xp s) := by
  cases hc : findCategory (jsTrim match1) with
  | none => exact Or.inl ⟨rfl, logXP_of_noCategory _ _ _ _ _ _ hc⟩
  | some category =>
    cases hx : parseInt match2 with
    | none =>
      exact Or.inr (Or.inl ⟨⟨category, rfl⟩, Or.inl rfl, logXP_of_nan _ _ _ _ _ _ hc hx⟩)
    | some xp =>
      by_cases hle : xp ≤ 0
      · exact Or.inr (Or.inl ⟨⟨category, rfl⟩, Or.inr ⟨xp, rfl, hle⟩,
          logXP_of_nonpos _ _ _ _ _ _ hc hx hle⟩)
      · have hpos : 0 < xp := not_le.mp hle
        by_cases hover : usedToday now today msg category s + xp > DAILY_XP_LIMIT
        · exact Or.inr (Or.inr (Or.inl ⟨category, xp, rfl, rfl, hpos, hover,
            logXP_of_over _ _ _ _ _ _ hc hx hpos hover⟩))
        · exact Or.inr (Or.inr (Or.inr ⟨category, xp, rfl, rfl, hpos, not_lt.mp hover,
            logXP_of_fits _ _ _ _ _ _ hc hx hpos (not_lt.mp hover)⟩))

/-! ## C1: the daily cap -/

theorem capHolds_checkMonthlyReset (now : Date) {s : Store} (h : CapHolds s.users) :
    CapHolds (checkMonthlyReset now s).users := by
  unfold checkMonthlyReset
  split
  · intro e he d c
    simp only [List.mem_map] at he
    obtain ⟨e0, _, rfl⟩ := he
    simp [usage_nil, DAILY_XP_LIMIT]
  · exact h

theorem capHolds_ensureUser (msg : Message) {users : List (Int × UserRecord)}
    (h : CapHolds users) : CapHolds (ensureUser msg users).1 := by
  intro e he d c
  rcases mem_ensureUser he with h1 | h1
  · exact h e h1 d c
  · subst h1
    simp [newUser, usage_nil, DAILY_XP_LIMIT]

theorem capHolds_afterLimitCheck (now today : Date) (msg : Message) {s : Store}
    (h : CapHolds s.users) : CapHolds (afterLimitCheck now today msg s).users := by
  have h1 := capHolds_ensureUser msg (capHolds_checkMonthlyReset now h)
  intro e he d c
  simp only [afterLimitCheck] at he
  rcases mem_objModify he with h2 | ⟨v, hv, rfl⟩
  · exact h1 e h2 d c
  · rw [usage_ensureDay]
    exact h1 _ (objGet_mem hv) d c

theorem objGet_afterLimitCheck (now today : Date) (msg : Message) (s : Store) :
    objGet msg.chatId (afterLimitCheck now today msg s).users
      = some (recordAtCheck now today msg s) := by
  simp [afterLimitCheck, recordAtCheck, recordAfterReset, objGet_objModify_self,
    objGet_ensureUser]

theorem capHolds_start (msg : Message) {s : Store} (h : CapHolds s.users) :
    CapHolds (start msg s).users := by
  unfold start
  split
  · intro e he d c
    rcases mem_usersCreate.mp he with h1 | h1
    · subst h1
      simp [newUser, usage_nil, DAILY_XP_LIMIT]
    · exact h e h1 d c
  · exact h

theorem capHolds_logXP (now today : Date) (msg : Message) (match1 match2 : String) {s : Store}
    (h : CapHolds s.users) : CapHolds (logXP now today msg match1 match2 s).1.users := by
  cases hc : findCategory (jsTrim match1) with
  | none =>
    rw [logXP_of_noCategory _ _ _ _ _ _ hc]
    exact capHolds_checkMonthlyReset now h
  | some category =>
    cases hx : parseInt match2 with
    | none =>
      rw [logXP_of_nan _ _ _ _ _ _ hc hx]
      exact capHolds_checkMonthlyReset now h
    | some xp =>
      by_cases hle : xp ≤ 0
      · rw [logXP_of_nonpos _ _ _ _ _ _ hc hx hle]
        exact capHolds_checkMonthlyReset now h
      · have hpos : 0 < xp := not_le.mp hle
        by_cases hover : usedToday now today msg category s + xp > DAILY_XP_LIMIT
        · rw [logXP_of_over _ _ _ _ _ _ hc hx hpos hover]
          exact capHolds_afterLimitCheck now today msg h
        · have hfit : usedToday now today msg category s + xp ≤ DAILY_XP_LIMIT := not_lt.mp hover
          rw [logXP_of_fits _ _ _ _ _ _ hc hx hpos hfit]
          have h1 := capHolds_afterLimitCheck now today msg h
          intro e he d c
          rcases mem_objModify he with h2 | ⟨v, hv, rfl⟩
          · exact h1 e h2 d c
          · rw [objGet_afterLimitCheck] at hv
            cases hv
            show usage (addXP today.toDateString category (usedToday now today msg category s)
              xp (recordAtCheck now today msg s)).dailyXP d c ≤ DAILY_XP_LIMIT
            rw [usage_addXP_recordAtCheck]
            split
            · exact hfit
            · rw [← usage_recordAtCheck now today msg s d c]
              exact h1 _ (objGet_mem (objGet_afterLimitCheck now today msg s)) d c

theorem capHolds_step {s : Store} (h : CapHolds s.users) (op : Op) :
    CapHolds (step s op).users := by
  cases op with
  | start msg => exact capHolds_start msg h
  | logXP now today msg match1 match2 => exact capHolds_logXP now today msg match1 match2 h
  | getProgress msg =>
    simp only [step, getProgress]
    split <;> exact h
  | monthlyLeaderboard now => exact capHolds_checkMonthlyReset now h
  | allTimeLeaderboard => exact h

theorem capHolds_run (ops : List Op) : ∀ {s : Store}, CapHolds s.users →
    CapHolds (run s ops).users := by
  induction ops with
  | nil => intro s h; exact h
  | cons op rest ih =>
    intro s h
    exact ih (capHolds_step h op)

/-- Claim C1. In every state reachable from the empty store by `/start`,
`/log`, `/xp`, `/monthly` and `/alltime` commands at any clock readings, every
record of `users`, on every day key `d` and in every category `c`, has
`dailyXP[d][c]` at most `DAILY_XP_LIMIT` (20). -/
theorem daily_cap_invariant (s : Store) (h : Reachable s) (id : Int) (u : UserRecord)
    (hu : (id, u) ∈ s.users) (d c : String) : usage u.dailyXP d c ≤ DAILY_XP_LIMIT := by
  obtain ⟨startup, ops, rfl⟩ := h
  have h0 : CapHolds (initStore startup).users := by
    intro e he
    simp [initStore] at he
  exact capHolds_run ops h0 (id, u) hu d c

/-- Witness for C1: after logging 15 and then 5 XP of Workout on one day, the
record of the sender holds exactly the cap. -/
theorem daily_cap_invariant_witness :
    usage [("Wed Nov 04 2026", [("Workout", (20 : Int))])] "Wed Nov 04 2026" "Workout"
      ≤ DAILY_XP_LIMIT :=
  daily_cap_invariant
    (run (initStore nov4)
      [Op.logXP nov4 nov4 annMsg "workout" "15", Op.logXP nov4 nov4 annMsg "workout" "5"])
    ⟨nov4, _, rfl⟩ 1
    { totalXP := 20, monthlyXP := 20,
      dailyXP := [("Wed Nov 04 2026", [("Workout", 20)])], username := "ann" }
    (by decide) "Wed Nov 04 2026" "Workout"

/-! ## C2: what a failed `/log` leaves behind -/

theorem afterLimitCheck_keeps (now today : Date) (msg : Message) (s : Store) (id : Int)
    (u : UserRecord) (h : objGet id (checkMonthlyReset now s).users = some u) :
    ∃ u', objGet id (afterLimitCheck now today msg s).users = some u' ∧
      u'.totalXP = u.totalXP ∧ u'.monthlyXP = u.monthlyXP ∧ u'.username = u.username ∧
      ∀ d c, usage u'.dailyXP d c = usage u.dailyXP d c := by
  by_cases hid : msg.chatId = id
  · subst hid
    refine ⟨ensureDay today.toDateString u, ?_, ?_, ?_, ?_, ?_⟩
    · simp [afterLimitCheck, objGet_objModify_self, ensureUser, h]
    · simp [ensureDay]
    · simp [ensureDay]
    · simp [ensureDay]
    · intro d c
      exact usage_ensureDay _ _ _ _
  · refine ⟨u, ?_, rfl, rfl, rfl, fun _ _ => rfl⟩
    simp [afterLimitCheck, objGet_objModify_ne hid, objGet_ensureUser_ne msg _ hid, h]

theorem afterLimitCheck_creates (now today : Date) (msg : Message) (s : Store) (id : Int)
    (u' : UserRecord) (h : objGet id (afterLimitCheck now today msg s).users = some u')
    (hnew : objGet id (checkMonthlyReset now s).users = none) :
    id = msg.chatId ∧ u' = ensureDay today.toDateString (newUser msg.sender) := by
  by_cases hid : msg.chatId = id
  · subst hid
    refine ⟨rfl, ?_⟩
    simp only [afterLimitCheck, objGet_objModify_self, objGet_ensureUser, Option.map_some',
      Option.some.injEq] at h
    rw [← h]
    simp [ensureUser, hnew]
  · rw [show (afterLimitCheck now today msg s).users
        = objModify msg.chatId (ensureDay today.toDateString)
            (ensureUser msg (checkMonthlyReset now s).users).1 from rfl,
      objGet_objModify_ne hid, objGet_ensureUser_ne msg _ hid, hnew] at h
    cases h

/-- Claim C2, as stated, fails. A first `/log Workout 25` in an empty store
is refused by the daily limit, yet it leaves a record for the sender (with an
empty entry for today); and a `/log` with an unknown category, arriving in
December on a store last touched in November, is refused after the monthly
reset has zeroed `monthlyXP` and cleared `dailyXP`. -/
theorem failure_atomicity_counterexample :
    (logXP nov4 nov4 annMsg "Workout" "25" (initStore nov4)
        = ({ users := [(1, { totalXP := 0, monthlyXP := 0,
                             dailyXP := [("Wed Nov 04 2026", [])], username := "ann" })],
             currentMonth := 10 },
           .error (.dailyLimit "Workout" 20 0))
      ∧ (logXP nov4 nov4 annMsg "Workout" "25" (initStore nov4)).1 ≠ initStore nov4)
    ∧ (logXP dec1 dec1 annMsg "Sleep" "5" novStore
        = ({ users := [(1, { totalXP := 120, monthlyXP := 0, dailyXP := [],
                             username := "ann" })],
             currentMonth := 11 },
           .error (.invalidCategory CATEGORIES))
      ∧ (logXP dec1 dec1 annMsg "Sleep" "5" novStore).1 ≠ novStore) := by
  decide

/-- Claim C2, amended. When a `/log` call ends in an error, the state it
leaves is the one its opening `checkMonthlyReset` produced, exactly so for an
invalid category or amount. When the daily limit stops the call, the month
marker and every record present after the reset check keep their `totalXP`,
`monthlyXP`, `username` and every `dailyXP[d][c]` reading, and the only record
that can be new is the one of the sender, with zero XP and an empty entry for
today. -/
theorem failure_leaves_reset_state (now today : Date) (msg : Message) (match1 match2 : String)
    (s : Store) (f : LogError) (h : (logXP now today msg match1 match2 s).2 = .error f) :
    ((∀ c l a, f ≠ .dailyLimit c l a) →
        (logXP now today msg match1 match2 s).1 = checkMonthlyReset now s) ∧
    (logXP now today msg match1 match2 s).1.currentMonth
        = (checkMonthlyReset now s).currentMonth ∧
    (∀ id u, objGet id (checkMonthlyReset now s).users = some u →
        ∃ u', objGet id (logXP now today msg match1 match2 s).1.users = some u' ∧
          u'.totalXP = u.totalXP ∧ u'.monthlyXP = u.monthlyXP ∧ u'.username = u.username ∧
          ∀ d c, usage u'.dailyXP d c = usage u.dailyXP d c) ∧
    (∀ id u', objGet id (logXP now today msg match1 match2 s).1.users = some u' →
        objGet id (checkMonthlyReset now s).users = none →
        id = msg.chatId ∧ u' = ensureDay today.toDateString (newUser msg.sender)) := by
  have same : (logXP now today msg match1 match2 s).1 = checkMonthlyReset now s →
      ((∀ c l a, f ≠ .dailyLimit c l a) →
          (logXP now today msg match1 match2 s).1 = checkMonthlyReset now s) ∧
      (logXP now today msg match1 match2 s).1.currentMonth
          = (checkMonthlyReset now s).currentMonth ∧
      (∀ id u, objGet id (checkMonthlyReset now s).users = some u →
          ∃ u', objGet id (logXP now today msg match1 match2 s).1.users = some u' ∧
            u'.totalXP = u.totalXP ∧ u'.monthlyXP = u.monthlyXP ∧ u'.username = u.username ∧
            ∀ d c, usage u'.dailyXP d c = usage u.dailyXP d c) ∧
      (∀ id u', objGet id (logXP now today msg match1 match2 s).1.users = some u' →
          objGet id (checkMonthlyReset now s).users = none →
          id = msg.chatId ∧ u' = ensureDay today.toDateString (newUser msg.sender)) := by
    intro e
    rw [e]
    refine ⟨fun _ => rfl, rfl, fun id u hu => ⟨u, hu, rfl, rfl, rfl, fun _ _ => rfl⟩, ?_⟩
    intro id u' h1 h2
    rw [h1] at h2
    cases h2
  rcases logXP_cases now today msg match1 match2 s with
    ⟨_, e⟩ | ⟨_, _, e⟩ | ⟨category, xp, _, _, _, _, e⟩ | ⟨category, xp, _, _, _, _, e⟩
  · exact same (by rw [e])
  · exact same (by rw [e])
  · rw [e] at h ⊢
    simp only [Except.error.injEq] at h
    refine ⟨fun hf => absurd h.symm (hf _ _ _), rfl, ?_, ?_⟩
    · exact afterLimitCheck_keeps now today msg s
    · exact afterLimitCheck_creates now today msg s
  · rw [e] at h
    simp [successOutcome] at h

/-- Witness for C2 (amended): the refused `/log Workout 25` in an empty store. -/
theorem failure_leaves_reset_state_witness :
    (logXP nov4 nov4 annMsg "Workout" "25" (initStore nov4)).1.currentMonth
      = (checkMonthlyReset nov4 (initStore nov4)).currentMonth :=
  (failure_leaves_reset_state nov4 nov4 annMsg "Workout" "25" (initStore nov4)
    (.dailyLimit "Workout" 20 0) (by decide)).2.1

/-! ## C3: a call refused at the cap -/

theorem checkMonthlyReset_of_current {now : Date} {s : Store}
    (h : now.getMonth = s.currentMonth) : checkMonthlyReset now s = s := by
  simp [checkMonthlyReset, h]

theorem recordAtCheck_of_present {now today : Date} {msg : Message} {s : Store}
    {u : UserRecord} (hu : objGet msg.chatId (checkMonthlyReset now s).users = some u) :
    recordAtCheck now today msg s = ensureDay today.toDateString u := by
  simp [recordAtCheck, recordAfterReset, ensureUser, hu]

/-- Claim C3, as stated, fails on the set of day keys. A user whose record has
no entry for today and who asks for 21 XP is refused, and the record is left
with an (empty) entry for today that it did not have. -/
theorem rejection_at_cap_counterexample :
    objGet 1 freshStore.users
        = some { totalXP := 0, monthlyXP := 0, dailyXP := [], username := "ann" }
    ∧ nov4.getMonth = freshStore.currentMonth
    ∧ findCategory (jsTrim "Workout") = some "Workout"
    ∧ parseInt "21" = some 21
    ∧ usage [] nov4.toDateString "Workout" + 21 > DAILY_XP_LIMIT
    ∧ objGet 1 (logXP nov4 nov4 annMsg "Workout" "21" freshStore).1.users
        = some { totalXP := 0, monthlyXP := 0, dailyXP := [("Wed Nov 04 2026", [])],
                 username := "ann" } := by
  decide

/-- Claim C3, amended. For a user who has a record, a valid category and a
positive amount, when the month marker is current and the XP already logged
today in that category plus the amount exceeds 20, the `/log` call is refused
and leaves the user's `totalXP`, `monthlyXP` and every `dailyXP[d][c]` reading
as they were. The `dailyXP` object is the old one with today's entry written
back, so it is unchanged when today had an entry and otherwise gains an empty
entry for today. -/
theorem rejection_at_cap_keeps_xp (now today : Date) (msg : Message) (match1 match2 : String)
    (s : Store) (u : UserRecord) (category : String) (xp : Int)
    (hu : objGet msg.chatId s.users = some u)
    (hmonth : now.getMonth = s.currentMonth)
    (hc : findCategory (jsTrim match1) = some category)
    (hx : parseInt match2 = some xp) (hpos : 0 < xp)
    (hover : usage u.dailyXP today.toDateString category + xp > DAILY_XP_LIMIT) :
    ∃ u', logXP now today msg match1 match2 s
        = ({ s with users := objModify msg.chatId (fun _ => u') s.users },
            .error (.dailyLimit category DAILY_XP_LIMIT
              (usage u.dailyXP today.toDateString category))) ∧
      objGet msg.chatId (logXP now today msg match1 match2 s).1.users = some u' ∧
      u'.totalXP = u.totalXP ∧ u'.monthlyXP = u.monthlyXP ∧ u'.username = u.username ∧
      (∀ d c, usage u'.dailyXP d c = usage u.dailyXP d c) ∧
      u'.dailyXP
        = objSet today.toDateString ((objGet today.toDateString u.dailyXP).getD []) u.dailyXP ∧
      ((objGet today.toDateString u.dailyXP).isSome → u'.dailyXP = u.dailyXP) := by
  have hs1 := checkMonthlyReset_of_current hmonth
  have hu1 : objGet msg.chatId (checkMonthlyReset now s).users = some u := by rw [hs1]; exact hu
  have hrec : recordAtCheck now today msg s = ensureDay today.toDateString u :=
    recordAtCheck_of_present hu1
  have hused : usedToday now today msg category s
      = usage u.dailyXP today.toDateString category := by
    simp [usedToday, hrec, usage_ensureDay]
  have hover1 : usedToday now today msg category s + xp > DAILY_XP_LIMIT := by
    rw [hused]; exact hover
  have e := logXP_of_over now today msg match1 match2 s hc hx hpos hover1
  have hmod : ∀ (f : UserRecord → UserRecord),
      objModify msg.chatId f s.users = objModify msg.chatId (fun _ => f u) s.users := by
    intro f
    have key : ∀ (l : List (Int × UserRecord)), objGet msg.chatId l = some u →
        objModify msg.chatId f l = objModify msg.chatId (fun _ => f u) l := by
      intro l
      induction l with
      | nil => intro _; rfl
      | cons e0 rest ih =>
        obtain ⟨k, v⟩ := e0
        intro hl
        by_cases hk : k = msg.chatId
        · simp [objGet, hk] at hl
          simp [objModify, hk, hl]
        · simp only [objGet, hk, if_false] at hl
          simp [objModify, hk, ih hl]
    exact key _ hu
  refine ⟨ensureDay today.toDateString u, ?_, ?_, ?_, ?_, ?_, ?_, ?_, ?_⟩
  · rw [e, hused]
    simp only [afterLimitCheck, hs1, ensureUser, hu, Prod.mk.injEq, and_true]
    rw [hmod]
  · rw [e, objGet_afterLimitCheck, hrec]
  · simp [ensureDay]
  · simp [ensureDay]
  · simp [ensureDay]
  · intro d c
    exact usage_ensureDay _ _ _ _
  · rfl
  · intro hsome
    obtain ⟨p, hp⟩ := Option.isSome_iff_exists.mp hsome
    simp only [ensureDay, hp, Option.getD_some]
    exact objSet_of_objGet hp

/-- Witness for C3 (amended): with 15 XP of Workout logged on 4 November, a
request for 6 more on that day. -/
theorem rejection_at_cap_keeps_xp_witness :
    ∃ u', logXP nov4 nov4 annMsg "Workout" "6" novStore
        = ({ novStore with users := objModify annMsg.chatId (fun _ => u') novStore.users },
            .error (.dailyLimit "Workout" DAILY_XP_LIMIT
              (usage [("Wed Nov 04 2026", [("Workout", (15 : Int))])] nov4.toDateString
                "Workout"))) ∧
      objGet annMsg.chatId (logXP nov4 nov4 annMsg "Workout" "6" novStore).1.users = some u' ∧
      u'.totalXP = 120 ∧ u'.monthlyXP = 50 ∧ u'.username = "ann" ∧
      (∀ d c, usage u'.dailyXP d c
        = usage [("Wed Nov 04 2026", [("Workout", (15 : Int))])] d c) ∧
      u'.dailyXP
        = objSet nov4.toDateString
            ((objGet nov4.toDateString
              [("Wed Nov 04 2026", [("Workout", (15 : Int))])]).getD [])
            [("Wed Nov 04 2026", [("Workout", (15 : Int))])] ∧
      ((objGet nov4.toDateString
          [("Wed Nov 04 2026", [("Workout", (15 : Int))])]).isSome →
        u'.dailyXP = [("Wed Nov 04 2026", [("Workout", (15 : Int))])]) :=
  rejection_at_cap_keeps_xp nov4 nov4 annMsg "Workout" "6" novStore
    { totalXP := 120, monthlyXP := 50,
      dailyXP := [("Wed Nov 04 2026", [("Workout", 15)])], username := "ann" }
    "Workout" 6 (by decide) (by decide) (by decide) (by decide) (by decide) (by decide)

/-! ## C4: a successful `/log` -/

theorem recordAfterReset_eq (now : Date) (msg : Message) (s : Store) :
    recordAfterReset now msg s
      = (objGet msg.chatId (checkMonthlyReset now s).users).getD (newUser msg.sender) := by
  unfold recordAfterReset ensureUser
  cases objGet msg.chatId (checkMonthlyReset now s).users <;> rfl

theorem usedToday_eq (now today : Date) (msg : Message) (category : String) (s : Store) :
    usedToday now today msg category s
      = usage (recordAfterReset now msg s).dailyXP today.toDateString category :=
  usage_recordAtCheck _ _ _ _ _ _

theorem objGet_successOutcome (now today : Date) (msg : Message) (category : String) (xp : Int)
    (s : Store) :
    objGet msg.chatId (successOutcome now today msg category xp s).1.users
      = some (addXP today.toDateString category (usedToday now today msg category s) xp
          (recordAtCheck now today msg s)) := by
  simp [successOutcome, objGet_objModify_self, objGet_afterLimitCheck]

/-- Claim C4. Take the sender's record as the reset check leaves it (a fresh
zero record if there is none), a valid category and an integer amount above 0,
and let `e` be the XP already logged today in that category. If `e + amount`
is at most 20, the `/log` call succeeds, and afterwards the record's `totalXP`
and `monthlyXP` are each larger by exactly the amount, `dailyXP[today][category]`
is `e + amount`, and every other reading of `dailyXP` is as before. -/
theorem successful_log_postcondition (now today : Date) (msg : Message)
    (match1 match2 : String) (s : Store) (category : String) (xp : Int)
    (hc : findCategory (jsTrim match1) = some category)
    (hx : parseInt match2 = some xp) (hpos : 0 < xp)
    (hfit : usage ((objGet msg.chatId (checkMonthlyReset now s).users).getD
        (newUser msg.sender)).dailyXP today.toDateString category + xp ≤ DAILY_XP_LIMIT) :
    ∃ u u', u = (objGet msg.chatId (checkMonthlyReset now s).users).getD (newUser msg.sender) ∧
      objGet msg.chatId (logXP now today msg match1 match2 s).1.users = some u' ∧
      u'.totalXP = u.totalXP + xp ∧
      u'.monthlyXP = u.monthlyXP + xp ∧
      usage u'.dailyXP today.toDateString category
        = usage u.dailyXP today.toDateString category + xp ∧
      (∀ d c, ¬ (d = today.toDateString ∧ c = category) →
        usage u'.dailyXP d c = usage u.dailyXP d c) ∧
      u'.username = u.username ∧
      (logXP now today msg match1 match2 s).2
        = .ok { xp := xp, category := category, monthlyXP := u'.monthlyXP,
                totalXP := u'.totalXP, level := level u'.totalXP } := by
  rw [← recordAfterReset_eq] at hfit
  have hfit1 : usedToday now today msg category s + xp ≤ DAILY_XP_LIMIT := by
    rw [usedToday_eq]; exact hfit
  have e := logXP_of_fits now today msg match1 match2 s hc hx hpos hfit1
  refine ⟨recordAfterReset now msg s,
    addXP today.toDateString category (usedToday now today msg category s) xp
      (recordAtCheck now today msg s), recordAfterReset_eq now msg s, ?_, ?_, ?_, ?_, ?_, ?_, ?_⟩
  · have h := objGet_successOutcome now today msg category xp s
    rw [successOutcome, ← e] at h
    exact h
  · simp [addXP, recordAtCheck, ensureDay]
  · simp [addXP, recordAtCheck, ensureDay]
  · rw [usage_addXP_recordAtCheck, usedToday_eq]
    simp
  · intro d c hne
    rw [usage_addXP_recordAtCheck, if_neg hne]
  · simp [addXP, recordAtCheck, ensureDay]
  · rw [e]
    simp [addXP, recordAtCheck, ensureDay]

/-- Witness for C4: 5 more XP of Workout on a day that already has 15. -/
theorem successful_log_postcondition_witness :
    ∃ u u', u = (objGet annMsg.chatId (checkMonthlyReset nov4 novStore).users).getD
          (newUser annMsg.sender) ∧
      objGet annMsg.chatId (logXP nov4 nov4 annMsg "Workout" "5" novStore).1.users = some u' ∧
      u'.totalXP = u.totalXP + 5 ∧
      u'.monthlyXP = u.monthlyXP + 5 ∧
      usage u'.dailyXP nov4.toDateString "Workout"
        = usage u.dailyXP nov4.toDateString "Workout" + 5 ∧
      (∀ d c, ¬ (d = nov4.toDateString ∧ c = "Workout") →
        usage u'.dailyXP d c = usage u.dailyXP d c) ∧
      u'.username = u.username ∧
      (logXP nov4 nov4 annMsg "Workout" "5" novStore).2
        = .ok { xp := 5, category := "Workout", monthlyXP := u'.monthlyXP,
                totalXP := u'.totalXP, level := level u'.totalXP } :=
  successful_log_postcondition nov4 nov4 annMsg "Workout" "5" novStore "Workout" 5
    (by decide) (by decide) (by decide) (by decide)

/-! ## C5: the boundary of the daily cap -/

/-- Claim C5. For a valid category and an integer amount above 0, with `e`
the XP already logged today in that category (read after the reset check), the
`/log` call fails with the daily-limit error exactly when `e + amount > 20`,
the error then carrying the category, the cap 20 and `e`; otherwise it
succeeds. So 15 and then 5 XP on one day both succeed, reaching 20, and a
third request for 1 XP that day fails with (Workout, 20, 20). -/
theorem daily_cap_boundary (now today : Date) (msg : Message) (match1 match2 : String)
    (s : Store) (category : String) (xp : Int)
    (hc : findCategory (jsTrim match1) = some category)
    (hx : parseInt match2 = some xp) (hpos : 0 < xp) :
    ((∃ c l a, (logXP now today msg match1 match2 s).2 = .error (.dailyLimit c l a)) ↔
        usage ((objGet msg.chatId (checkMonthlyReset now s).users).getD
          (newUser msg.sender)).dailyXP today.toDateString category + xp > DAILY_XP_LIMIT) ∧
    (usage ((objGet msg.chatId (checkMonthlyReset now s).users).getD
          (newUser msg.sender)).dailyXP today.toDateString category + xp > DAILY_XP_LIMIT →
      (logXP now today msg match1 match2 s).2
        = .error (.dailyLimit category 20
            (usage ((objGet msg.chatId (checkMonthlyReset now s).users).getD
              (newUser msg.sender)).dailyXP today.toDateString category))) ∧
    (usage ((objGet msg.chatId (checkMonthlyReset now s).users).getD
          (newUser msg.sender)).dailyXP today.toDateString category + xp ≤ DAILY_XP_LIMIT →
      ∃ r, (logXP now today msg match1 match2 s).2 = .ok r) ∧
    ((logXP nov4 nov4 annMsg "Workout" "15" (initStore nov4)).2
        = .ok { xp := 15, category := "Workout", monthlyXP := 15, totalXP := 15, level := 0 } ∧
      (logXP nov4 nov4 annMsg "Workout" "5"
          (logXP nov4 nov4 annMsg "Workout" "15" (initStore nov4)).1).2
        = .ok { xp := 5, category := "Workout", monthlyXP := 20, totalXP := 20, level := 0 } ∧
      (logXP nov4 nov4 annMsg "Workout" "1"
          (logXP nov4 nov4 annMsg "Workout" "5"
            (logXP nov4 nov4 annMsg "Workout" "15" (initStore nov4)).1).1).2
        = .error (.dailyLimit "Workout" 20 20)) := by
  rw [← recordAfterReset_eq, ← usedToday_eq]
  have hover : usedToday now today msg category s + xp > DAILY_XP_LIMIT →
      (logXP now today msg match1 match2 s).2
        = .error (.dailyLimit category 20 (usedToday now today msg category s)) := by
    intro h
    rw [logXP_of_over now today msg match1 match2 s hc hx hpos h]
    rfl
  have hfits : usedToday now today msg category s + xp ≤ DAILY_XP_LIMIT →
      ∃ r, (logXP now today msg match1 match2 s).2 = .ok r := by
    intro h
    rw [logXP_of_fits now today msg match1 match2 s hc hx hpos h]
    exact ⟨_, rfl⟩
  refine ⟨⟨?_, fun h => ⟨_, _, _, hover h⟩⟩, hover, hfits, by decide⟩
  rintro ⟨c, l, a, h⟩
  by_contra hno
  obtain ⟨r, hr⟩ := hfits (not_lt.mp hno)
  rw [hr] at h
  cases h

/-- Witness for C5: the third request of the scenario, 1 XP at 20 of 20. -/
theorem daily_cap_boundary_witness :
    (logXP nov4 nov4 annMsg "Workout" "1"
        (logXP nov4 nov4 annMsg "Workout" "5"
          (logXP nov4 nov4 annMsg "Workout" "15" (initStore nov4)).1).1).2
      = .error (.dailyLimit "Workout" 20
          (usage ((objGet annMsg.chatId
            (checkMonthlyReset nov4
              (logXP nov4 nov4 annMsg "Workout" "5"
                (logXP nov4 nov4 annMsg "Workout" "15" (initStore nov4)).1).1).users).getD
            (newUser annMsg.sender)).dailyXP nov4.toDateString "Workout")) :=
  (daily_cap_boundary nov4 nov4 annMsg "Workout" "1"
    (logXP nov4 nov4 annMsg "Workout" "5"
      (logXP nov4 nov4 annMsg "Workout" "15" (initStore nov4)).1).1
    "Workout" 1 (by decide) (by decide) (by decide)).2.1 (by decide)

/-! ## C6: which category a `/log` call resolves to -/

theorem findCategory_iff (input c : String) :
    findCategory input = some c ↔ c ∈ CATEGORIES ∧ toLowerCase input = toLowerCase c := by
  constructor
  · intro h
    unfold findCategory at h
    have hmem := List.mem_of_find?_eq_some h
    have hp := List.find?_some h
    simp only [decide_eq_true_eq] at hp
    exact ⟨hmem, hp.symm⟩
  · rintro ⟨hmem, hlow⟩
    unfold findCategory
    rw [hlow]
    simp only [CATEGORIES, List.mem_cons, List.mem_singleton, List.not_mem_nil, or_false] at hmem
    rcases hmem with rfl | rfl | rfl | rfl | rfl | rfl <;> decide

theorem findCategory_none_iff (input : String) :
    findCategory input = none ↔ ∀ c ∈ CATEGORIES, toLowerCase input ≠ toLowerCase c := by
  constructor
  · intro h c hc hlow
    have := (findCategory_iff input c).mpr ⟨hc, hlow⟩
    rw [h] at this
    cases this
  · intro h
    cases hf : findCategory input with
    | none => rfl
    | some c =>
      have := (findCategory_iff input c).mp hf
      exact absurd this.2 (h c this.1)

theorem logXP_congr_category (now today : Date) (msg : Message) (a b match2 : String)
    (s : Store) (h : findCategory (jsTrim a) = findCategory (jsTrim b)) :
    logXP now today msg a match2 s = logXP now today msg b match2 s := by
  simp only [logXP, h]

/-- Claim C6, as stated, fails: the handler trims the category text before
matching it. The text ` workout`, with a leading space, has the lower case of
no configured category, and yet the call succeeds and logs into Workout. -/
theorem category_resolution_counterexample :
    (∀ c ∈ CATEGORIES, toLowerCase " workout" ≠ toLowerCase c)
    ∧ logXP nov4 nov4 annMsg " workout" "5" (initStore nov4)
        = ({ users := [(1, { totalXP := 5, monthlyXP := 5,
                             dailyXP := [("Wed Nov 04 2026", [("Workout", 5)])],
                             username := "ann" })],
             currentMonth := 10 },
           .ok { xp := 5, category := "Workout", monthlyXP := 5, totalXP := 5, level := 0 }) := by
  decide

/-- Claim C6, amended. For every category text `s`, the `/log` handler
resolves `s` to the configured category `c`, in its configured casing, exactly
when the lower case of `trim(s)` is the lower case of `c`: the call then does
what it does on the text `c` itself. When no configured category matches, it
fails with the invalid-category error carrying the category list. So
`workout` and `WORKOUT`, 5 XP each, both succeed and add up to 10 in the one
bucket `dailyXP[today]["Workout"]`. -/
theorem category_resolution (now today : Date) (msg : Message) (match1 match2 : String)
    (s : Store) :
    (∀ c, findCategory (jsTrim match1) = some c ↔
        c ∈ CATEGORIES ∧ toLowerCase (jsTrim match1) = toLowerCase c) ∧
    (∀ c ∈ CATEGORIES, toLowerCase (jsTrim match1) = toLowerCase c →
        logXP now today msg match1 match2 s = logXP now today msg c match2 s ∧
        ∀ r, (logXP now today msg match1 match2 s).2 = .ok r → r.category = c) ∧
    ((∀ c ∈ CATEGORIES, toLowerCase (jsTrim match1) ≠ toLowerCase c) →
        logXP now today msg match1 match2 s
          = (checkMonthlyReset now s, .error (.invalidCategory CATEGORIES))) ∧
    ((logXP nov4 nov4 annMsg "workout" "5" (initStore nov4)).2
        = .ok { xp := 5, category := "Workout", monthlyXP := 5, totalXP := 5, level := 0 } ∧
      logXP nov4 nov4 annMsg "WORKOUT" "5"
          (logXP nov4 nov4 annMsg "workout" "5" (initStore nov4)).1
        = ({ users := [(1, { totalXP := 10, monthlyXP := 10,
                             dailyXP := [("Wed Nov 04 2026", [("Workout", 10)])],
                             username := "ann" })],
             currentMonth := 10 },
           .ok { xp := 5, category := "Workout", monthlyXP := 10, totalXP := 10,
                 level := 0 })) := by
  refine ⟨fun c => findCategory_iff _ c, ?_, ?_, by decide⟩
  · intro c hc hlow
    have h1 : findCategory (jsTrim match1) = some c := (findCategory_iff _ c).mpr ⟨hc, hlow⟩
    have h2 : findCategory (jsTrim c) = some c := by
      simp only [CATEGORIES, List.mem_cons, List.mem_singleton, List.not_mem_nil, or_false] at hc
      rcases hc with rfl | rfl | rfl | rfl | rfl | rfl <;> decide
    refine ⟨logXP_congr_category now today msg match1 c match2 s (h1.trans h2.symm), ?_⟩
    intro r hr
    rcases logXP_cases now today msg match1 match2 s with
      ⟨_, e⟩ | ⟨_, _, e⟩ | ⟨category, xp, _, _, _, _, e⟩ | ⟨category, xp, hcat, _, _, _, e⟩
    · rw [e] at hr; cases hr
    · rw [e] at hr; cases hr
    · rw [e] at hr; cases hr
    · rw [e] at hr
      rw [h1] at hcat
      cases hcat
      simp only [successOutcome, Except.ok.injEq] at hr
      rw [← hr]
  · intro h
    exact logXP_of_noCategory now today msg match1 match2 s
      ((findCategory_none_iff _).mpr h)

/-- Witness for C6 (amended): the text ` WORK ` resolves to Work. -/
theorem category_resolution_witness :
    logXP nov4 nov4 annMsg " WORK " "5" novStore = logXP nov4 nov4 annMsg "Work" "5" novStore ∧
      ∀ r, (logXP nov4 nov4 annMsg " WORK " "5" novStore).2 = .ok r → r.category = "Work" :=
  (category_resolution nov4 nov4 annMsg " WORK " "5" novStore).2.1 "Work" (by decide) (by decide)

/-! ## C7: the level -/

theorem level_eq_ediv (t : Int) : level t = t / 500 := by
  unfold level LEVEL_UP_XP
  exact Int.fdiv_eq_ediv t (by decide)

theorem level_bounds (t : Int) : 500 * level t ≤ t ∧ t < 500 * (level t + 1) := by
  rw [level_eq_ediv]
  omega

theorem level_unique (t L : Int) (h1 : 500 * L ≤ t) (h2 : t < 500 * (L + 1)) : L = level t := by
  rw [level_eq_ediv]
  omega

/-- Claim C7. The level is the floor of `totalXP / 500`: the one integer `L`
with `500 * L ≤ totalXP < 500 * (L + 1)`, so 499 gives 0, 500 and 999 give 1
and 1000 gives 2. That is the level a successful `/log` reports for the total
it has just written, the level `/xp` reports for the total of the record (0
for a user with no record), and the level of every row of the all-time board. -/
theorem level_derivation :
    (∀ t : Int, 500 * level t ≤ t ∧ t < 500 * (level t + 1)) ∧
    (∀ t L : Int, 500 * L ≤ t ∧ t < 500 * (L + 1) → L = level t) ∧
    (level 499 = 0 ∧ level 500 = 1 ∧ level 999 = 1 ∧ level 1000 = 2 ∧ level 0 = 0) ∧
    (∀ now today msg match1 match2 s r,
      (logXP now today msg match1 match2 s).2 = .ok r →
        r.level = level r.totalXP ∧
        ∃ u', objGet msg.chatId (logXP now today msg match1 match2 s).1.users = some u' ∧
          u'.totalXP = r.totalXP) ∧
    (∀ msg s, (getProgress msg s).2.level = level (getProgress msg s).2.totalXP ∧
      (getProgress msg s).2.totalXP
        = match objGet msg.chatId s.users with
          | some u => u.totalXP
          | none => 0) ∧
    (∀ s, allTimeRows (allTimeLeaderboard s).2
        = (allTimeLeaderboard s).2.map
            (fun e => { username := e.2.username, totalXP := e.2.totalXP,
                        level := level e.2.totalXP }) ∧
      ∀ row ∈ allTimeRows (allTimeLeaderboard s).2, row.level = level row.totalXP) := by
  refine ⟨level_bounds, fun t L h => level_unique t L h.1 h.2, by decide, ?_, ?_, ?_⟩
  · intro now today msg match1 match2 s r hr
    rcases logXP_cases now today msg match1 match2 s with
      ⟨_, e⟩ | ⟨_, _, e⟩ | ⟨category, xp, _, _, _, _, e⟩ | ⟨category, xp, hcat, _, _, _, e⟩
    · rw [e] at hr; cases hr
    · rw [e] at hr; cases hr
    · rw [e] at hr; cases hr
    · rw [e] at hr ⊢
      simp only [successOutcome, Except.ok.injEq] at hr
      subst hr
      refine ⟨rfl, _, objGet_successOutcome now today msg category xp s, ?_⟩
      simp [addXP]
  · intro msg s
    unfold getProgress
    cases objGet msg.chatId s.users <;> simp
  · intro s
    refine ⟨rfl, ?_⟩
    intro row hrow
    simp only [allTimeRows, List.mem_map] at hrow
    obtain ⟨e, _, rfl⟩ := hrow
    rfl

/-- Witness for C7: the level reported when 5 XP bring a total of 495 to 500. -/
theorem level_derivation_witness :
    (1 : Int) = level 500 ∧
      (logXP nov4 nov4 annMsg "Work" "5"
        { users := [(1, { totalXP := 495, monthlyXP := 0, dailyXP := [], username := "ann" })],
          currentMonth := 10 }).2
        = .ok { xp := 5, category := "Work", monthlyXP := 5, totalXP := 500, level := 1 } :=
  ⟨level_derivation.2.1 500 1 (by decide), by decide⟩

/-! ## C8: the month rollover -/

/-- Claim C8. When the month marker differs from the current month,
`checkMonthlyReset` sets the marker to the current month, keeps the users and
their order, and turns every record into the same record with `monthlyXP` 0
and an empty `dailyXP`, `totalXP` and `username` being untouched. -/
theorem month_rollover_effect (now : Date) (s : Store) (h : now.getMonth ≠ s.currentMonth) :
    (checkMonthlyReset now s).currentMonth = now.getMonth ∧
    (checkMonthlyReset now s).users.map Prod.fst = s.users.map Prod.fst ∧
    (∀ id, objGet id (checkMonthlyReset now s).users
        = (objGet id s.users).map (fun u => { u with monthlyXP := 0, dailyXP := [] })) ∧
    (∀ id u', objGet id (checkMonthlyReset now s).users = some u' →
        u'.monthlyXP = 0 ∧ u'.dailyXP = [] ∧ (∀ d c, usage u'.dailyXP d c = 0) ∧
        ∃ u, objGet id s.users = some u ∧ u'.totalXP = u.totalXP ∧ u'.username = u.username) ∧
    (∀ e' ∈ (checkMonthlyReset now s).users, e'.2.monthlyXP = 0 ∧ e'.2.dailyXP = []) := by
  have hs : checkMonthlyReset now s
      = { users := s.users.map (fun e => (e.1, { e.2 with monthlyXP := 0, dailyXP := [] })),
          currentMonth := now.getMonth } := by
    simp [checkMonthlyReset, h]
  have hget : ∀ id, objGet id (checkMonthlyReset now s).users
      = (objGet id s.users).map (fun u => { u with monthlyXP := 0, dailyXP := [] }) := by
    intro id
    rw [hs]
    exact objGet_map_snd id (fun u => { u with monthlyXP := 0, dailyXP := [] }) s.users
  refine ⟨by rw [hs], ?_, hget, ?_, ?_⟩
  · rw [hs]
    simp [List.map_map, Function.comp_def]
  · intro id u' hu'
    rw [hget] at hu'
    cases hu : objGet id s.users with
    | none => rw [hu] at hu'; cases hu'
    | some u =>
      rw [hu] at hu'
      simp only [Option.map_some', Option.some.injEq] at hu'
      subst hu'
      exact ⟨rfl, rfl, fun d c => usage_nil d c, u, rfl, rfl, rfl⟩
  · intro e' he'
    rw [hs] at he'
    simp only [List.mem_map] at he'
    obtain ⟨e, _, rfl⟩ := he'
    exact ⟨rfl, rfl⟩

/-- Witness for C8: a store last touched in November, read in December. -/
theorem month_rollover_effect_witness :
    (checkMonthlyReset dec1 novStore).currentMonth = dec1.getMonth ∧
    (checkMonthlyReset dec1 novStore).users.map Prod.fst = novStore.users.map Prod.fst ∧
    (∀ id, objGet id (checkMonthlyReset dec1 novStore).users
        = (objGet id novStore.users).map (fun u => { u with monthlyXP := 0, dailyXP := [] })) ∧
    (∀ id u', objGet id (checkMonthlyReset dec1 novStore).users = some u' →
        u'.monthlyXP = 0 ∧ u'.dailyXP = [] ∧ (∀ d c, usage u'.dailyXP d c = 0) ∧
        ∃ u, objGet id novStore.users = some u ∧ u'.totalXP = u.totalXP ∧
          u'.username = u.username) ∧
    (∀ e' ∈ (checkMonthlyReset dec1 novStore).users, e'.2.monthlyXP = 0 ∧ e'.2.dailyXP = []) :=
  month_rollover_effect dec1 novStore (by decide)

/-! ## C9: which commands run the reset check -/

theorem checkMonthlyReset_idem (now : Date) (s : Store) :
    checkMonthlyReset now (checkMonthlyReset now s) = checkMonthlyReset now s := by
  by_cases h : now.getMonth = s.currentMonth
  · rw [checkMonthlyReset_of_current h, checkMonthlyReset_of_current h]
  · apply checkMonthlyReset_of_current
    simp [checkMonthlyReset, h]

theorem logXP_after_reset (now today : Date) (msg : Message) (match1 match2 : String)
    (s : Store) :
    logXP now today msg match1 match2 (checkMonthlyReset now s)
      = logXP now today msg match1 match2 s := by
  simp only [logXP, checkMonthlyReset_idem]

theorem logXP_currentMonth (now today : Date) (msg : Message) (match1 match2 : String)
    (s : Store) :
    (logXP now today msg match1 match2 s).1.currentMonth
      = (checkMonthlyReset now s).currentMonth := by
  rcases logXP_cases now today msg match1 match2 s with
    ⟨_, e⟩ | ⟨_, _, e⟩ | ⟨category, xp, _, _, _, _, e⟩ | ⟨category, xp, _, _, _, _, e⟩ <;>
  rw [e] <;> rfl

theorem objGet_afterLimitCheck_ne (now today : Date) (msg : Message) (s : Store) {id : Int}
    (hid : msg.chatId ≠ id) :
    objGet id (afterLimitCheck now today msg s).users
      = objGet id (checkMonthlyReset now s).users := by
  simp [afterLimitCheck, objGet_objModify_ne hid, objGet_ensureUser_ne msg _ hid]

theorem logXP_other_users (now today : Date) (msg : Message) (match1 match2 : String)
    (s : Store) {id : Int} (hid : msg.chatId ≠ id) :
    objGet id (logXP now today msg match1 match2 s).1.users
      = objGet id (checkMonthlyReset now s).users := by
  rcases logXP_cases now today msg match1 match2 s with
    ⟨_, e⟩ | ⟨_, _, e⟩ | ⟨category, xp, _, _, _, _, e⟩ | ⟨category, xp, _, _, _, _, e⟩
  · rw [e]
  · rw [e]
  · rw [e]
    exact objGet_afterLimitCheck_ne now today msg s hid
  · rw [e]
    simp only [successOutcome]
    rw [objGet_objModify_ne hid]
    exact objGet_afterLimitCheck_ne now today msg s hid

theorem sortedAllTime_map (g : UserRecord → UserRecord) (hg : ∀ u, (g u).totalXP = u.totalXP)
    (users : List (Int × UserRecord)) :
    sortedAllTime (users.map (fun e => (e.1, g e.2)))
      = (sortedAllTime users).map (fun e => (e.1, g e.2)) := by
  unfold sortedAllTime jsSort
  rw [List.filter_map, List.map_take]
  have hp : ((fun e : Int × UserRecord => decide (e.2.totalXP > 0)) ∘
      fun e : Int × UserRecord => (e.1, g e.2))
        = fun e : Int × UserRecord => decide (e.2.totalXP > 0) := by
    funext e
    simp [hg]
  rw [hp]
  congr 1
  symm
  apply List.map_insertionSort
  intro a _ b _
  simp [hg]

theorem allTimeRows_reset (now : Date) (s : Store) :
    allTimeRows (sortedAllTime (checkMonthlyReset now s).users)
      = allTimeRows (sortedAllTime s.users) := by
  unfold checkMonthlyReset
  split
  · have h := sortedAllTime_map
      (fun u : UserRecord => { u with monthlyXP := 0, dailyXP := [] }) (fun _ => rfl) s.users
    simp only at h
    simp only [h]
    simp [allTimeRows, List.map_map, Function.comp_def]
  · rfl

/-- Claim C9, as stated, fails for `/alltime`: its handler never calls
`checkMonthlyReset`. Run on a store last touched in November, whatever the
month is now, it leaves `monthlyXP` at 50, `dailyXP` filled and the marker at
November, whereas `/monthly` run in December resets all three. -/
theorem alltime_reset_counterexample :
    dec1.getMonth ≠ novStore.currentMonth
    ∧ (allTimeLeaderboard novStore).1
        = { users := [(1, { totalXP := 120, monthlyXP := 50,
                            dailyXP := [("Wed Nov 04 2026", [("Workout", 15)])],
                            username := "ann" })],
            currentMonth := 10 }
    ∧ (monthlyLeaderboard dec1 novStore).1
        = { users := [(1, { totalXP := 120, monthlyXP := 0, dailyXP := [],
                            username := "ann" })],
            currentMonth := 11 } := by
  decide

/-- Claim C9, amended. When the month marker differs from the current month,
`/monthly` and `/log` run the reset before anything else: `/monthly` leaves
the reset state and ranks the reset records, and `/log` does what it does on
the reset state, so that afterwards the marker is the current month and every
record but the sender's has `monthlyXP` 0 and an empty `dailyXP`. The handler
of `/alltime` runs no reset and leaves the state as it is; the rows it shows
are those it would show after a reset, which changes no `totalXP`. -/
theorem lazy_reset_operations (now today : Date) (msg : Message) (match1 match2 : String)
    (s : Store) (h : now.getMonth ≠ s.currentMonth) :
    (monthlyLeaderboard now s
        = (checkMonthlyReset now s, sortedMonthly (checkMonthlyReset now s).users) ∧
      (monthlyLeaderboard now s).1.currentMonth = now.getMonth ∧
      ∀ e ∈ (monthlyLeaderboard now s).1.users, e.2.monthlyXP = 0 ∧ e.2.dailyXP = []) ∧
    (logXP now today msg match1 match2 s
        = logXP now today msg match1 match2 (checkMonthlyReset now s) ∧
      (logXP now today msg match1 match2 s).1.currentMonth = now.getMonth ∧
      ∀ id, msg.chatId ≠ id →
        objGet id (logXP now today msg match1 match2 s).1.users
          = (objGet id s.users).map (fun u => { u with monthlyXP := 0, dailyXP := [] })) ∧
    ((allTimeLeaderboard s).1 = s ∧
      allTimeRows (allTimeLeaderboard s).2
        = allTimeRows (allTimeLeaderboard (checkMonthlyReset now s)).2) := by
  have hs : checkMonthlyReset now s
      = { users := s.users.map (fun e => (e.1, { e.2 with monthlyXP := 0, dailyXP := [] })),
          currentMonth := now.getMonth } := by
    simp [checkMonthlyReset, h]
  refine ⟨⟨rfl, ?_, ?_⟩, ⟨(logXP_after_reset now today msg match1 match2 s).symm, ?_, ?_⟩,
    rfl, ?_⟩
  · show (checkMonthlyReset now s).currentMonth = now.getMonth
    rw [hs]
  · show ∀ e ∈ (checkMonthlyReset now s).users, e.2.monthlyXP = 0 ∧ e.2.dailyXP = []
    rw [hs]
    intro e he
    simp only [List.mem_map] at he
    obtain ⟨e0, _, rfl⟩ := he
    exact ⟨rfl, rfl⟩
  · rw [logXP_currentMonth, hs]
  · intro id hid
    rw [logXP_other_users now today msg match1 match2 s hid, hs]
    exact objGet_map_snd id (fun u => { u with monthlyXP := 0, dailyXP := [] }) s.users
  · exact (allTimeRows_reset now s).symm

/-- Witness for C9 (amended): the November store, read in December. -/
theorem lazy_reset_operations_witness :
    (allTimeLeaderboard novStore).1 = novStore ∧
      allTimeRows (allTimeLeaderboard novStore).2
        = allTimeRows (allTimeLeaderboard (checkMonthlyReset dec1 novStore)).2 :=
  (lazy_reset_operations dec1 dec1 annMsg "Workout" "5" novStore (by decide)).2.2

/-! ## C10: the order of a leaderboard -/

theorem jsSort_perm {α : Type} (cmp : α → α → Int) (xs : List α) : (jsSort cmp xs).Perm xs :=
  List.perm_insertionSort _ xs

theorem jsSort_pairwise {α : Type} (key : α → Int) (xs : List α) :
    (jsSort (fun a b => key b - key a) xs).Pairwise (fun a b => key a ≥ key b) := by
  haveI : IsTotal α (fun a b => key b - key a ≤ 0) := ⟨fun a b => by omega⟩
  haveI : IsTrans α (fun a b => key b - key a ≤ 0) := ⟨fun a b c h1 h2 => by omega⟩
  have h := List.sorted_insertionSort (fun a b => key b - key a ≤ 0) xs
  exact List.Pairwise.imp (fun {a b} hab => by omega) h

theorem jsSort_stable {α : Type} (key : α → Int) (xs : List α) (v : Int) :
    (jsSort (fun a b => key b - key a) xs).filter (fun e => decide (key e = v))
      = xs.filter (fun e => decide (key e = v)) := by
  have hpair : (xs.filter (fun e => decide (key e = v))).Pairwise
      (fun a b => key b - key a ≤ 0) := by
    rw [List.pairwise_iff_forall_sublist]
    intro a b hab
    have ha : a ∈ xs.filter (fun e => decide (key e = v)) := hab.subset (by simp)
    have hb : b ∈ xs.filter (fun e => decide (key e = v)) := hab.subset (by simp)
    simp only [List.mem_filter, decide_eq_true_eq] at ha hb
    omega
  have hsub : List.Sublist (xs.filter (fun e => decide (key e = v)))
      (jsSort (fun a b => key b - key a) xs) :=
    List.sublist_insertionSort hpair (List.filter_sublist xs)
  have hsub2 := hsub.filter (fun e => decide (key e = v))
  rw [List.filter_filter] at hsub2
  simp only [Bool.and_self] at hsub2
  have hlen := ((jsSort_perm (fun a b => key b - key a) xs).filter
    (fun e => decide (key e = v))).length_eq
  exact (hsub2.eq_of_length hlen.symm).symm

theorem ranking_order {α : Type} (key : α → Int) (xs : List α) :
    (∀ e ∈ (jsSort (fun a b => key b - key a)
        (xs.filter (fun e => decide (key e > 0)))).take 10, e ∈ xs ∧ key e > 0) ∧
    ((jsSort (fun a b => key b - key a)
        (xs.filter (fun e => decide (key e > 0)))).take 10).Pairwise
      (fun a b => key a ≥ key b) ∧
    (∀ v, List.Sublist
      (((jsSort (fun a b => key b - key a)
        (xs.filter (fun e => decide (key e > 0)))).take 10).filter
          (fun e => decide (key e = v)))
      (xs.filter (fun e => decide (key e = v)))) := by
  refine ⟨?_, ?_, ?_⟩
  · intro e he
    have h1 := (jsSort_perm _ _).subset (List.mem_of_mem_take he)
    simpa using h1
  · exact (jsSort_pairwise key _).sublist (List.take_sublist _ _)
  · intro v
    have h1 : List.Sublist
        (((jsSort (fun a b => key b - key a)
          (xs.filter (fun e => decide (key e > 0)))).take 10).filter
            (fun e => decide (key e = v)))
        ((jsSort (fun a b => key b - key a)
          (xs.filter (fun e => decide (key e > 0)))).filter (fun e => decide (key e = v))) :=
      (List.take_sublist _ _).filter _
    rw [jsSort_stable] at h1
    refine h1.trans ?_
    exact (List.filter_sublist xs).filter _

/-- Claim C10. The board of `/monthly` (resp. `/alltime`) holds only records
of the store with `monthlyXP` (resp. `totalXP`) above 0, lists them in
non-increasing order of that field, and keeps records of equal XP in the order
in which the store enumerates them: for every XP value, the listed records of
that value form a sublist of the store's records of that value. Monthly XP of
30, 10, 30 and 0 give the first 30, the second 30, then the 10, without the 0. -/
theorem leaderboard_order (now : Date) (s : Store) :
    ((∀ e ∈ (monthlyLeaderboard now s).2,
        e ∈ (monthlyLeaderboard now s).1.users ∧ e.2.monthlyXP > 0) ∧
      (monthlyLeaderboard now s).2.Pairwise (fun a b => a.2.monthlyXP ≥ b.2.monthlyXP) ∧
      (∀ v, List.Sublist
        ((monthlyLeaderboard now s).2.filter (fun e => decide (e.2.monthlyXP = v)))
        ((monthlyLeaderboard now s).1.users.filter (fun e => decide (e.2.monthlyXP = v))))) ∧
    ((∀ e ∈ (allTimeLeaderboard s).2, e ∈ s.users ∧ e.2.totalXP > 0) ∧
      (allTimeLeaderboard s).2.Pairwise (fun a b => a.2.totalXP ≥ b.2.totalXP) ∧
      (∀ v, List.Sublist
        ((allTimeLeaderboard s).2.filter (fun e => decide (e.2.totalXP = v)))
        (s.users.filter (fun e => decide (e.2.totalXP = v))))) ∧
    ((monthlyLeaderboard nov4 { users := fourUsers, currentMonth := 10 }).2
        = [(1, { totalXP := 30, monthlyXP := 30, dailyXP := [], username := "ann" }),
           (3, { totalXP := 30, monthlyXP := 30, dailyXP := [], username := "cy" }),
           (2, { totalXP := 10, monthlyXP := 10, dailyXP := [], username := "bob" })] ∧
      monthlyRows (monthlyLeaderboard nov4 { users := fourUsers, currentMonth := 10 }).2
        = [("ann", 30), ("cy", 30), ("bob", 10)]) := by
  refine ⟨?_, ?_, by decide⟩
  · exact ranking_order (fun e : Int × UserRecord => e.2.monthlyXP)
      (checkMonthlyReset now s).users
  · exact ranking_order (fun e : Int × UserRecord => e.2.totalXP) s.users

/-- Witness for C10: the two records with 30 XP keep their order on the board. -/
theorem leaderboard_order_witness :
    List.Sublist
      ((monthlyLeaderboard nov4 { users := fourUsers, currentMonth := 10 }).2.filter
        (fun e => decide (e.2.monthlyXP = 30)))
      ((monthlyLeaderboard nov4 { users := fourUsers, currentMonth := 10 }).1.users.filter
        (fun e => decide (e.2.monthlyXP = 30))) :=
  (leaderboard_order nov4 { users := fourUsers, currentMonth := 10 }).1.2.2 30

/-! ## C11: the length of a leaderboard -/

theorem ranking_length {α : Type} (key : α → Int) (xs : List α) :
    ((jsSort (fun a b => key b - key a)
      (xs.filter (fun e => decide (key e > 0)))).take 10).length
      = min 10 (xs.filter (fun e => decide (key e > 0))).length := by
  rw [List.length_take, (jsSort_perm _ _).length_eq]

theorem sortedMonthly_after_rollover (now : Date) (s : Store)
    (h : now.getMonth ≠ s.currentMonth) : sortedMonthly (checkMonthlyReset now s).users = [] := by
  have hf : (s.users.map
      (fun e : Int × UserRecord => (e.1, { e.2 with monthlyXP := 0, dailyXP := [] }))).filter
        (fun e => decide (e.2.monthlyXP > 0)) = [] := by
    rw [List.filter_eq_nil_iff]
    intro e he
    simp only [List.mem_map] at he
    obtain ⟨e0, _, rfl⟩ := he
    simp
  simp only [checkMonthlyReset, h, if_true, ne_eq, not_false_eq_true, sortedMonthly, hf]
  rfl

/-- Claim C11, as stated, fails for `/monthly` at a month rollover. The store
reached by one `/log Workout 15` in November has one record with `monthlyXP`
above 0, yet `/monthly` called on it on 1 December returns no entry, not
`min(10, 1)`: the reset check has run first. -/
theorem leaderboard_length_counterexample :
    loggedStore.users
        = [(1, { totalXP := 15, monthlyXP := 15,
                 dailyXP := [("Wed Nov 04 2026", [("Workout", 15)])], username := "ann" })]
    ∧ (loggedStore.users.filter (fun e => decide (e.2.monthlyXP > 0))).length = 1
    ∧ (monthlyLeaderboard dec1 loggedStore).2 = []
    ∧ (monthlyLeaderboard dec1 loggedStore).2.length
        ≠ min 10 (loggedStore.users.filter (fun e => decide (e.2.monthlyXP > 0))).length := by
  decide

/-- Claim C11, amended. Called on the store `s` at the clock reading `now`,
`/monthly` leaves the state `checkMonthlyReset now s`, and its board has as
many entries as that state has records with `monthlyXP` above 0, but no more
than 10: when the marker of `s` is the current month these are the records of
`s` itself, and when the marker differs the board is empty. The board of
`/alltime` has as many entries as `s` has records with `totalXP` above 0, but
no more than 10. So 15 users with positive XP give exactly 10 entries on both
boards, and a store that has just been initialised gives the empty board twice. -/
theorem leaderboard_length (now : Date) (s : Store) :
    (monthlyLeaderboard now s).1 = checkMonthlyReset now s ∧
    (monthlyLeaderboard now s).2.length
        = min 10 ((checkMonthlyReset now s).users.filter
            (fun e => decide (e.2.monthlyXP > 0))).length ∧
    (now.getMonth = s.currentMonth →
      (monthlyLeaderboard now s).2.length
        = min 10 (s.users.filter (fun e => decide (e.2.monthlyXP > 0))).length) ∧
    (now.getMonth ≠ s.currentMonth → (monthlyLeaderboard now s).2 = []) ∧
    (allTimeLeaderboard s).1 = s ∧
    (allTimeLeaderboard s).2.length
        = min 10 (s.users.filter (fun e => decide (e.2.totalXP > 0))).length ∧
    ((s.users.filter (fun e => decide (e.2.totalXP > 0))).length = 15 →
        (allTimeLeaderboard s).2.length = 10) ∧
    ((fifteenUsers.filter (fun e => decide (e.2.totalXP > 0))).length = 15 ∧
      (allTimeLeaderboard { users := fifteenUsers, currentMonth := 10 }).2.length = 10 ∧
      (fifteenUsers.filter (fun e => decide (e.2.monthlyXP > 0))).length = 15 ∧
      (monthlyLeaderboard nov4 { users := fifteenUsers, currentMonth := 10 }).2.length = 10) ∧
    (∀ startup, (monthlyLeaderboard now (initStore startup)).2 = [] ∧
      (allTimeLeaderboard (initStore startup)).2 = []) := by
  have h1 : (monthlyLeaderboard now s).2.length
      = min 10 ((checkMonthlyReset now s).users.filter
          (fun e => decide (e.2.monthlyXP > 0))).length :=
    ranking_length (fun e : Int × UserRecord => e.2.monthlyXP) (checkMonthlyReset now s).users
  have h2 : (allTimeLeaderboard s).2.length
      = min 10 (s.users.filter (fun e => decide (e.2.totalXP > 0))).length :=
    ranking_length (fun e : Int × UserRecord => e.2.totalXP) s.users
  refine ⟨rfl, h1, ?_, ?_, rfl, h2, ?_, by decide, ?_⟩
  · intro hcur
    rw [h1]
    simp [checkMonthlyReset, hcur]
  · intro hroll
    exact sortedMonthly_after_rollover now s hroll
  · intro h
    rw [h2, h]
    rfl
  · intro startup
    constructor
    · simp [monthlyLeaderboard, checkMonthlyReset, initStore, sortedMonthly, jsSort]
      split <;> rfl
    · rfl

/-- Witness for C11 (amended): fifteen users with positive monthly XP, read in
the month of the marker, give a board of `min 10 15` entries. -/
theorem leaderboard_length_witness :
    (monthlyLeaderboard nov4 { users := fifteenUsers, currentMonth := 10 }).2.length
      = min 10 (fifteenUsers.filter (fun e => decide (e.2.monthlyXP > 0))).length :=
  (leaderboard_length nov4 { users := fifteenUsers, currentMonth := 10 }).2.2.1 (by decide)

/-! ## C12: the period keys -/

theorem toNat_digitChar (k : Nat) (h : k < 10) : (Char.ofNat (48 + k)).toNat = 48 + k := by
  interval_cases k <;> rfl

theorem revValue_revDigits : ∀ (fuel width n : Nat), n + width < fuel →
    revValue (revDigits fuel width n) = n := by
  intro fuel
  induction fuel with
  | zero => intro width n h; omega
  | succ fuel ih =>
    intro width n h
    unfold revDigits
    split
    · rename_i hsmall
      simp only [revValue, toNat_digitChar n hsmall.1]
      omega
    · rename_i hbig
      have hmod : n % 10 < 10 := Nat.mod_lt _ (by decide)
      simp only [revValue, toNat_digitChar (n % 10) hmod]
      rw [ih (width - 1) (n / 10) (by omega)]
      omega

theorem padNat_injective (width a b : Nat) (h : padNat width a = padNat width b) : a = b := by
  have h1 : (revDigits (a + width + 1) width a).reverse
      = (revDigits (b + width + 1) width b).reverse := by
    have := congrArg String.data h
    simpa [padNat] using this
  have h2 := List.reverse_injective h1
  have h3 := congrArg revValue h2
  rwa [revValue_revDigits _ _ _ (by omega), revValue_revDigits _ _ _ (by omega)] at h3

theorem length_padNat_two (n : Nat) (h : n < 100) : (padNat 2 n).data.length = 2 := by
  have h1 : n / 10 < 10 := by omega
  simp [padNat, revDigits, h1]

theorem length_dayName (i : Nat) (h : i < 7) : (dayNames.getD i "").data.length = 3 := by
  interval_cases i <;> rfl

theorem length_monthName (i : Nat) (h : i < 12) : (monthNames.getD i "").data.length = 3 := by
  interval_cases i <;> rfl

theorem dayName_injective (i j : Nat) (hi : i < 7) (hj : j < 7)
    (h : dayNames.getD i "" = dayNames.getD j "") : i = j := by
  interval_cases i <;> interval_cases j <;> first | rfl | (exact absurd h (by decide))

theorem monthName_injective (i j : Nat) (hi : i < 12) (hj : j < 12)
    (h : monthNames.getD i "" = monthNames.getD j "") : i = j := by
  interval_cases i <;> interval_cases j <;> first | rfl | (exact absurd h (by decide))

theorem toDateString_data (d : Date) :
    d.toDateString.data
      = (dayNames.getD d.day "").data ++ (' ' :: ((monthNames.getD d.month "").data ++
          (' ' :: ((padNat 2 d.date).data ++ (' ' :: (padNat 4 d.fullYear).data))))) := by
  simp [Date.toDateString, String.data_append]

theorem toDateString_injective (a b : Date) (ha : a.wellFormed) (hb : b.wellFormed)
    (h : a.toDateString = b.toDateString) : a = b := by
  obtain ⟨ham, _, had, haw⟩ := ha
  obtain ⟨hbm, _, hbd, hbw⟩ := hb
  have h0 := congrArg String.data h
  rw [toDateString_data, toDateString_data] at h0
  obtain ⟨h1, h2⟩ := List.append_inj h0
    (by rw [length_dayName _ haw, length_dayName _ hbw])
  have h3 := List.tail_eq_of_cons_eq h2
  obtain ⟨h4, h5⟩ := List.append_inj h3
    (by rw [length_monthName _ ham, length_monthName _ hbm])
  have h6 := List.tail_eq_of_cons_eq h5
  obtain ⟨h7, h8⟩ := List.append_inj h6
    (by rw [length_padNat_two _ (by omega), length_padNat_two _ (by omega)])
  have h9 := List.tail_eq_of_cons_eq h8
  have eday := dayName_injective _ _ haw hbw (String.ext h1)
  have emonth := monthName_injective _ _ ham hbm (String.ext h4)
  have edate := padNat_injective 2 _ _ (String.ext h7)
  have eyear := padNat_injective 4 _ _ (String.ext h9)
  cases a
  cases b
  simp only at eday emonth edate eyear
  subst eday emonth edate eyear
  rfl

/-- Claim C12, checked on the code. The day key is faithful: for dates whose
fields are in range, `toDateString()` gives equal texts exactly for the same
calendar day (same year, month and day, hence the same weekday). The month key
is not: `getMonth()` is the month of the year alone, so 4 November 2026 and
4 November 2027, which lie in different calendar months, have the same key 10,
and `checkMonthlyReset` called on the second date with the marker of the first
resets nothing. -/
theorem period_keys_year_blind :
    (∀ a b : Date, a.wellFormed → b.wellFormed →
      (a.toDateString = b.toDateString ↔ sameCalendarDay a b ∧ a.day = b.day)) ∧
    (¬ sameCalendarMonth nov4 nov4NextYear ∧
      nov4.getMonth = nov4NextYear.getMonth ∧
      nov4.toDateString ≠ nov4NextYear.toDateString ∧
      checkMonthlyReset nov4NextYear novStore = novStore ∧
      objGet 1 (checkMonthlyReset nov4NextYear novStore).users
        = some { totalXP := 120, monthlyXP := 50,
                 dailyXP := [("Wed Nov 04 2026", [("Workout", 15)])], username := "ann" }) := by
  refine ⟨?_, by unfold sameCalendarMonth; decide⟩
  intro a b ha hb
  constructor
  · intro h
    have e := toDateString_injective a b ha hb h
    subst e
    exact ⟨⟨rfl, rfl, rfl⟩, rfl⟩
  · rintro ⟨⟨h1, h2, h3⟩, h4⟩
    cases a
    cases b
    simp only at h1 h2 h3 h4
    subst h1 h2 h3 h4
    rfl

/-! ## Properties of single records along a run -/

theorem checkMonthlyReset_users (now : Date) (s : Store) :
    (checkMonthlyReset now s).users = s.users ∨
      (checkMonthlyReset now s).users = s.users.map (fun e => (e.1, resetRecord e.2)) := by
  unfold checkMonthlyReset
  split
  · exact Or.inr rfl
  · exact Or.inl rfl

theorem objGet_checkMonthlyReset (now : Date) (s : Store) (id : Int) :
    objGet id (checkMonthlyReset now s).users = objGet id s.users ∨
      objGet id (checkMonthlyReset now s).users = (objGet id s.users).map resetRecord := by
  rcases checkMonthlyReset_users now s with h | h
  · exact Or.inl (by rw [h])
  · exact Or.inr (by rw [h]; exact objGet_map_snd id resetRecord s.users)

/-- A property of records that holds of a fresh record and is kept by the reset,
by the creation of today's entry and by an accepted addition of XP holds of every
record after any command. -/
theorem records_step (P : UserRecord → Prop)
    (hnew : ∀ sender, P (newUser sender))
    (hreset : ∀ u, P u → P (resetRecord u))
    (hday : ∀ t u, P u → P (ensureDay t u))
    (hadd : ∀ t c xp u, P u → 0 < xp → (objGet t u.dailyXP).isSome →
      usage u.dailyXP t c + xp ≤ DAILY_XP_LIMIT → P (addXP t c (usage u.dailyXP t c) xp u))
    {s : Store} (h : ∀ e ∈ s.users, P e.2) (op : Op) : ∀ e ∈ (step s op).users, P e.2 := by
  have hr : ∀ now, ∀ e ∈ (checkMonthlyReset now s).users, P e.2 := by
    intro now e he
    rcases checkMonthlyReset_users now s with h1 | h1
    · rw [h1] at he
      exact h e he
    · rw [h1] at he
      simp only [List.mem_map] at he
      obtain ⟨e0, he0, rfl⟩ := he
      exact hreset _ (h e0 he0)
  have hlim : ∀ now today msg, ∀ e ∈ (afterLimitCheck now today msg s).users, P e.2 := by
    intro now today msg e he
    simp only [afterLimitCheck] at he
    rcases mem_objModify he with h2 | ⟨v, hv, rfl⟩
    · rcases mem_ensureUser h2 with h3 | h3
      · exact hr now e h3
      · subst h3
        exact hnew _
    · apply hday
      rcases mem_ensureUser (objGet_mem hv) with h3 | h3
      · exact hr now _ h3
      · cases h3
        exact hnew _
  cases op with
  | start msg =>
    intro e he
    simp only [step, start] at he
    split at he
    · rcases mem_usersCreate.mp he with h1 | h1
      · subst h1
        exact hnew _
      · exact h e h1
    · exact h e he
  | logXP now today msg match1 match2 =>
    intro e he
    simp only [step] at he
    rcases logXP_cases now today msg match1 match2 s with
      ⟨_, eq⟩ | ⟨_, _, eq⟩ | ⟨category, xp, _, _, _, _, eq⟩ | ⟨category, xp, _, _, hpos, hfit, eq⟩
    · rw [eq] at he
      exact hr now e he
    · rw [eq] at he
      exact hr now e he
    · rw [eq] at he
      exact hlim now today msg e he
    · rw [eq] at he
      simp only [successOutcome] at he
      rcases mem_objModify he with h2 | ⟨v, hv, rfl⟩
      · exact hlim now today msg e h2
      · rw [objGet_afterLimitCheck] at hv
        cases hv
        have hP : P (recordAtCheck now today msg s) :=
          hlim now today msg _ (objGet_mem (objGet_afterLimitCheck now today msg s))
        have hsome : (objGet today.toDateString
            (recordAtCheck now today msg s).dailyXP).isSome := by
          simp [recordAtCheck, objGet_ensureDay]
        exact hadd today.toDateString category xp _ hP hpos hsome hfit
  | getProgress msg =>
    intro e he
    simp only [step, getProgress] at he
    split at he <;> exact h e he
  | monthlyLeaderboard now => exact hr now
  | allTimeLeaderboard => exact h

theorem records_reachable (P : UserRecord → Prop)
    (hnew : ∀ sender, P (newUser sender))
    (hreset : ∀ u, P u → P (resetRecord u))
    (hday : ∀ t u, P u → P (ensureDay t u))
    (hadd : ∀ t c xp u, P u → 0 < xp → (objGet t u.dailyXP).isSome →
      usage u.dailyXP t c + xp ≤ DAILY_XP_LIMIT → P (addXP t c (usage u.dailyXP t c) xp u))
    {s : Store} (h : Reachable s) : ∀ e ∈ s.users, P e.2 := by
  obtain ⟨startup, ops, rfl⟩ := h
  have key : ∀ (ops : List Op) (s0 : Store), (∀ e ∈ s0.users, P e.2) →
      ∀ e ∈ (run s0 ops).users, P e.2 := by
    intro ops
    induction ops with
    | nil => intro s0 h0; exact h0
    | cons op rest ih =>
      intro s0 h0
      exact ih _ (records_step P hnew hreset hday hadd h0 op)
  exact key ops _ (by intro e he; simp [initStore] at he)

theorem checkMonthlyReset_keeps (now : Date) (s : Store) {id : Int} {u : UserRecord}
    (h : objGet id s.users = some u) :
    ∃ u1, objGet id (checkMonthlyReset now s).users = some u1 ∧
      u1.totalXP = u.totalXP ∧ u1.username = u.username := by
  rcases objGet_checkMonthlyReset now s id with h1 | h1
  · exact ⟨u, by rw [h1, h], rfl, rfl⟩
  · exact ⟨resetRecord u, by rw [h1, h]; rfl, rfl, rfl⟩

theorem recordAfterReset_of_present {now : Date} {msg : Message} {s : Store} {u1 : UserRecord}
    (h : objGet msg.chatId (checkMonthlyReset now s).users = some u1) :
    recordAfterReset now msg s = u1 := by
  rw [recordAfterReset_eq, h]
  rfl

theorem logXP_sender_record (now today : Date) (msg : Message) (match1 match2 : String)
    (s : Store) {u1 : UserRecord}
    (h : objGet msg.chatId (checkMonthlyReset now s).users = some u1) :
    ∃ u', objGet msg.chatId (logXP now today msg match1 match2 s).1.users = some u' ∧
      u'.username = u1.username ∧
      (u'.totalXP = u1.totalXP ∨ ∃ xp, 0 < xp ∧ u'.totalXP = u1.totalXP + xp) := by
  have hrec := recordAfterReset_of_present h
  rcases logXP_cases now today msg match1 match2 s with
    ⟨_, eq⟩ | ⟨_, _, eq⟩ | ⟨category, xp, _, _, _, _, eq⟩ | ⟨category, xp, _, _, hpos, _, eq⟩
  · exact ⟨u1, by rw [eq]; exact h, rfl, Or.inl rfl⟩
  · exact ⟨u1, by rw [eq]; exact h, rfl, Or.inl rfl⟩
  · refine ⟨recordAtCheck now today msg s, by rw [eq]; exact objGet_afterLimitCheck _ _ _ _,
      ?_, Or.inl ?_⟩
    · simp [recordAtCheck, ensureDay, hrec]
    · simp [recordAtCheck, ensureDay, hrec]
  · refine ⟨_, by rw [eq]; exact objGet_successOutcome _ _ _ _ _ _, ?_, Or.inr ⟨xp, hpos, ?_⟩⟩
    · simp [addXP, recordAtCheck, ensureDay, hrec]
    · simp [addXP, recordAtCheck, ensureDay, hrec]

/-- A record that exists before a command exists after it, with the same
`username` and a `totalXP` that is not smaller. -/
theorem step_keeps_record (s : Store) (op : Op) {id : Int} {u : UserRecord}
    (h : objGet id s.users = some u) :
    ∃ u', objGet id (step s op).users = some u' ∧ u.totalXP ≤ u'.totalXP ∧
      u'.username = u.username := by
  cases op with
  | start msg =>
    simp only [step, start]
    split
    · rename_i hnone
      have hne : msg.chatId ≠ id := by
        intro e
        rw [e, h] at hnone
        simp at hnone
      exact ⟨u, by simp only [objGet_usersCreate_ne hne, h], le_refl _, rfl⟩
    · exact ⟨u, h, le_refl _, rfl⟩
  | logXP now today msg match1 match2 =>
    obtain ⟨u1, h1, ht, hn⟩ := checkMonthlyReset_keeps now s h
    simp only [step]
    by_cases hid : msg.chatId = id
    · subst hid
      obtain ⟨u', hu', hn', ht'⟩ := logXP_sender_record now today msg match1 match2 s h1
      refine ⟨u', hu', ?_, by rw [hn', hn]⟩
      rcases ht' with e | ⟨xp, hpos, e⟩ <;> omega
    · refine ⟨u1, ?_, by omega, hn⟩
      rw [logXP_other_users now today msg match1 match2 s hid, h1]
  | getProgress msg =>
    simp only [step, getProgress]
    split <;> exact ⟨u, h, le_refl _, rfl⟩
  | monthlyLeaderboard now =>
    obtain ⟨u1, h1, ht, hn⟩ := checkMonthlyReset_keeps now s h
    exact ⟨u1, h1, by omega, hn⟩
  | allTimeLeaderboard => exact ⟨u, h, le_refl _, rfl⟩

/-! ## C13: `totalXP` never decreases -/

/-- Claim C13. In every reachable state every record has a `totalXP` of at
least 0, and whatever command comes next (`/start`, `/log` accepted or refused,
`/xp`, `/monthly`, `/alltime`), and also under the monthly reset taken alone,
every user who has a record still has one afterwards, whose `totalXP` is not
smaller than before. -/
theorem totalXP_monotone (s : Store) (h : Reachable s) :
    (∀ id u, (id, u) ∈ s.users → 0 ≤ u.totalXP) ∧
    (∀ op id u, objGet id s.users = some u →
      ∃ u', objGet id (step s op).users = some u' ∧ u.totalXP ≤ u'.totalXP) ∧
    (∀ now id u, objGet id s.users = some u →
      ∃ u', objGet id (checkMonthlyReset now s).users = some u' ∧ u'.totalXP = u.totalXP) := by
  refine ⟨?_, ?_, ?_⟩
  · intro id u hu
    exact records_reachable (fun r => 0 ≤ r.totalXP)
      (fun _ => le_refl _) (fun _ hr => hr) (fun _ _ hr => hr)
      (fun t c xp r hr hpos _ _ => by
        show 0 ≤ r.totalXP + xp
        omega)
      h (id, u) hu
  · intro op id u hu
    obtain ⟨u', h1, h2, _⟩ := step_keeps_record s op hu
    exact ⟨u', h1, h2⟩
  · intro now id u hu
    obtain ⟨u', h1, h2, _⟩ := checkMonthlyReset_keeps now s hu
    exact ⟨u', h1, h2⟩

/-- Witness for C13: after 15 XP, a further 5 XP take the total from 15 to 20. -/
theorem totalXP_monotone_witness :
    ∃ u', objGet 1 (step (run (initStore nov4) [Op.logXP nov4 nov4 annMsg "workout" "15"])
        (Op.logXP nov4 nov4 annMsg "workout" "5")).users = some u' ∧
      (15 : Int) ≤ u'.totalXP :=
  (totalXP_monotone (run (initStore nov4) [Op.logXP nov4 nov4 annMsg "workout" "15"])
    ⟨nov4, _, rfl⟩).2.1 (Op.logXP nov4 nov4 annMsg "workout" "5") 1
    { totalXP := 15, monthlyXP := 15, dailyXP := [("Wed Nov 04 2026", [("Workout", 15)])],
      username := "ann" } (by decide)

/-! ## C14: `/xp` only reads -/

/-- Claim C14. The `/xp` handler returns the record's `monthlyXP`, `totalXP`
and the floor of `totalXP / 500` when the user has a record, and 0, 0 and level
0 when there is none; in both cases the state after the call is the state
before it, so no record is created or changed. -/
theorem getProgress_read_only (msg : Message) (s : Store) :
    (getProgress msg s).1 = s ∧
    (∀ u, objGet msg.chatId s.users = some u →
      (getProgress msg s).2
        = { monthlyXP := u.monthlyXP, totalXP := u.totalXP, level := level u.totalXP } ∧
      500 * (getProgress msg s).2.level ≤ u.totalXP ∧
      u.totalXP < 500 * ((getProgress msg s).2.level + 1)) ∧
    (objGet msg.chatId s.users = none →
      (getProgress msg s).2 = { monthlyXP := 0, totalXP := 0, level := 0 } ∧
      objGet msg.chatId (getProgress msg s).1.users = none) := by
  refine ⟨?_, ?_, ?_⟩
  · unfold getProgress
    split <;> rfl
  · intro u hu
    have h : (getProgress msg s).2
        = { monthlyXP := u.monthlyXP, totalXP := u.totalXP, level := level u.totalXP } := by
      simp [getProgress, hu]
    rw [h]
    exact ⟨rfl, level_bounds u.totalXP⟩
  · intro hu
    constructor
    · simp only [getProgress, hu]
      decide
    · simp only [getProgress, hu]

/-- Witness for C14: the progress of the one user of the November store. -/
theorem getProgress_read_only_witness :
    (getProgress annMsg novStore).2
        = { monthlyXP := 50, totalXP := 120, level := level 120 } ∧
      500 * (getProgress annMsg novStore).2.level ≤ 120 ∧
      (120 : Int) < 500 * ((getProgress annMsg novStore).2.level + 1) :=
  (getProgress_read_only annMsg novStore).2.1
    { totalXP := 120, monthlyXP := 50,
      dailyXP := [("Wed Nov 04 2026", [("Workout", 15)])], username := "ann" } (by decide)

/-! ## C15: the reset is idempotent -/

/-- Claim C15. At a fixed clock reading, running `checkMonthlyReset` twice
gives the state that running it once gives, and when the marker already is the
current month it changes nothing, neither a record nor the marker. -/
theorem reset_idempotent (now : Date) (s : Store) :
    checkMonthlyReset now (checkMonthlyReset now s) = checkMonthlyReset now s ∧
    (now.getMonth = s.currentMonth → checkMonthlyReset now s = s) ∧
    (checkMonthlyReset now s).currentMonth = now.getMonth := by
  refine ⟨checkMonthlyReset_idem now s, checkMonthlyReset_of_current, ?_⟩
  unfold checkMonthlyReset
  split
  · rfl
  · rename_i h
    exact (not_not.mp h).symm

/-- Witness for C15: the November store read in November is left as it is. -/
theorem reset_idempotent_witness : checkMonthlyReset nov4 novStore = novStore :=
  (reset_idempotent nov4 novStore).2.1 (by decide)

/-! ## C16: the display name -/

theorem truthy_of_nonempty {h : String} (hne : h ≠ "") : truthy (some h) = some h := by
  simp [truthy, hne]

theorem truthy_of_absent {x : Option String} (h : x = none ∨ x = some "") :
    truthy x = none := by
  rcases h with h | h <;> simp [truthy, h]

theorem append_ne_empty {a : String} (b : String) (h : a ≠ "") : a ++ b ≠ "" := by
  intro e
  apply h
  have e1 := congrArg String.data e
  rw [String.data_append] at e1
  have e2 : a.data = [] := (List.append_eq_nil.mp e1).1
  exact String.ext e2

theorem getUsername_handle (sender : From) (h : String) (hu : sender.username = some h)
    (hne : h ≠ "") : getUsername sender = h := by
  simp [getUsername, hu, truthy_of_nonempty hne]

theorem getUsername_both (sender : From) (f l : String)
    (hu : sender.username = none ∨ sender.username = some "")
    (hf : sender.first_name = some f) (hfne : f ≠ "")
    (hl : sender.last_name = some l) (hlne : l ≠ "") :
    getUsername sender = f ++ " " ++ l := by
  have hj : f ++ " " ++ l ≠ "" := append_ne_empty _ (append_ne_empty _ hfne)
  simp [getUsername, truthy_of_absent hu, hf, hl, truthy_of_nonempty hfne,
    truthy_of_nonempty hlne, String.intercalate, String.intercalate.go, hj]

theorem getUsername_first (sender : From) (f : String)
    (hu : sender.username = none ∨ sender.username = some "")
    (hf : sender.first_name = some f) (hfne : f ≠ "")
    (hl : sender.last_name = none ∨ sender.last_name = some "") :
    getUsername sender = f := by
  simp [getUsername, truthy_of_absent hu, hf, truthy_of_absent hl, truthy_of_nonempty hfne,
    String.intercalate, String.intercalate.go, hfne]

theorem getUsername_last (sender : From) (l : String)
    (hu : sender.username = none ∨ sender.username = some "")
    (hf : sender.first_name = none ∨ sender.first_name = some "")
    (hl : sender.last_name = some l) (hlne : l ≠ "") :
    getUsername sender = l := by
  simp [getUsername, truthy_of_absent hu, hl, truthy_of_absent hf, truthy_of_nonempty hlne,
    String.intercalate, String.intercalate.go, hlne]

theorem getUsername_anonymous (sender : From)
    (hu : sender.username = none ∨ sender.username = some "")
    (hf : sender.first_name = none ∨ sender.first_name = some "")
    (hl : sender.last_name = none ∨ sender.last_name = some "") :
    getUsername sender = "Anonymous" := by
  simp [getUsername, truthy_of_absent hu, truthy_of_absent hf, truthy_of_absent hl,
    String.intercalate]

/-- Claim C16. The name given to a new record is the handle when it is
present and not empty; otherwise the present, non-empty ones of first and last
name, joined by one space; otherwise `Anonymous`. Both `/start` and `/log`
create the record of an unknown sender with that name and zero XP, and for a
sender who has a record they take the existing one: no command ever changes
the `username` of a record. -/
theorem display_name_derivation (msg : Message) (s : Store) :
    (∀ h, msg.sender.username = some h → h ≠ "" → getUsername msg.sender = h) ∧
    ((msg.sender.username = none ∨ msg.sender.username = some "") →
      (∀ f l, msg.sender.first_name = some f → f ≠ "" →
          msg.sender.last_name = some l → l ≠ "" →
          getUsername msg.sender = f ++ " " ++ l) ∧
      (∀ f, msg.sender.first_name = some f → f ≠ "" →
          (msg.sender.last_name = none ∨ msg.sender.last_name = some "") →
          getUsername msg.sender = f) ∧
      (∀ l, (msg.sender.first_name = none ∨ msg.sender.first_name = some "") →
          msg.sender.last_name = some l → l ≠ "" →
          getUsername msg.sender = l) ∧
      ((msg.sender.first_name = none ∨ msg.sender.first_name = some "") →
          (msg.sender.last_name = none ∨ msg.sender.last_name = some "") →
          getUsername msg.sender = "Anonymous")) ∧
    (objGet msg.chatId s.users = none →
      objGet msg.chatId (start msg s).users
          = some { totalXP := 0, monthlyXP := 0, dailyXP := [],
                   username := getUsername msg.sender } ∧
      (ensureUser msg s.users).2
          = { totalXP := 0, monthlyXP := 0, dailyXP := [],
              username := getUsername msg.sender } ∧
      objGet msg.chatId (ensureUser msg s.users).1 = some (ensureUser msg s.users).2) ∧
    (∀ u, objGet msg.chatId s.users = some u →
      start msg s = s ∧ ensureUser msg s.users = (s.users, u)) ∧
    (∀ op id u, objGet id s.users = some u →
      ∃ u', objGet id (step s op).users = some u' ∧ u'.username = u.username) := by
  refine ⟨getUsername_handle msg.sender, ?_, ?_, ?_, ?_⟩
  · intro hu
    exact ⟨fun f l hf hfne hl hlne => getUsername_both msg.sender f l hu hf hfne hl hlne,
      fun f hf hfne hl => getUsername_first msg.sender f hu hf hfne hl,
      fun l hf hl hlne => getUsername_last msg.sender l hu hf hl hlne,
      fun hf hl => getUsername_anonymous msg.sender hu hf hl⟩
  · intro hnone
    refine ⟨?_, ?_, objGet_ensureUser msg s.users⟩
    · simp only [start, hnone, Option.isNone_none, if_true]
      exact objGet_usersCreate_self _ hnone
    · simp [ensureUser, hnone, newUser]
  · intro u hu
    constructor
    · simp [start, hu]
    · simp [ensureUser, hu]
  · intro op id u hu
    obtain ⟨u', h1, _, h2⟩ := step_keeps_record s op hu
    exact ⟨u', h1, h2⟩

/-- Witness for C16: a sender with no handle and the names Ada and Lovelace. -/
theorem display_name_derivation_witness :
    getUsername { username := none, first_name := some "Ada", last_name := some "Lovelace" }
      = "Ada" ++ " " ++ "Lovelace" :=
  ((display_name_derivation
      { chatId := 7,
        sender := { username := none, first_name := some "Ada", last_name := some "Lovelace" } }
      novStore).2.1 (Or.inl rfl)).1 "Ada" "Lovelace" rfl (by decide) rfl (by decide)

/-! ## C17: which amounts are accepted -/

/-- Claim C17, as stated, fails: `parseInt` reads the digits at the start of
the text and ignores what follows. The texts `5abc` and `5.7` are not integers,
yet each is read as 5 and the call succeeds with 5 XP. -/
theorem amount_validation_counterexample :
    findCategory (jsTrim "Workout") = some "Workout"
    ∧ parseInt "5abc" = some 5 ∧ parseInt "5.7" = some 5
    ∧ (logXP nov4 nov4 annMsg "Workout" "5abc" (initStore nov4)).2
        = .ok { xp := 5, category := "Workout", monthlyXP := 5, totalXP := 5, level := 0 }
    ∧ (logXP nov4 nov4 annMsg "Workout" "5.7" (initStore nov4)).2
        = .ok { xp := 5, category := "Workout", monthlyXP := 5, totalXP := 5, level := 0 } := by
  decide

/-- Claim C17, amended. For a valid category, the `/log` call fails with the
invalid-amount error exactly when `parseInt` of the amount text is `NaN` (no
digit after the optional white space and sign, as in `abc` or the empty text)
or is at most 0, and passes the amount check exactly when `parseInt` gives an
integer above 0; text after the leading digits is ignored, so `5abc` and `5.7`
are read as 5. The category is checked first: an invalid category gives the
invalid-category error whatever the amount. -/
theorem amount_validation (now today : Date) (msg : Message) (match1 match2 : String)
    (s : Store) :
    ((∃ c, findCategory (jsTrim match1) = some c) →
      ((logXP now today msg match1 match2 s).2 = .error .invalidAmount ↔
        (parseInt match2 = none ∨ ∃ xp, parseInt match2 = some xp ∧ xp ≤ 0)) ∧
      ((parseInt match2 = none ∨ ∃ xp, parseInt match2 = some xp ∧ xp ≤ 0) →
        logXP now today msg match1 match2 s
          = (checkMonthlyReset now s, .error .invalidAmount)) ∧
      (∀ xp, parseInt match2 = some xp → 0 < xp →
        (∃ r, (logXP now today msg match1 match2 s).2 = .ok r ∧ r.xp = xp) ∨
        (∃ c a, (logXP now today msg match1 match2 s).2
          = .error (.dailyLimit c DAILY_XP_LIMIT a)))) ∧
    (findCategory (jsTrim match1) = none →
      logXP now today msg match1 match2 s
        = (checkMonthlyReset now s, .error (.invalidCategory CATEGORIES))) ∧
    (parseInt "abc" = none ∧ parseInt "" = none ∧ parseInt "-" = none ∧
      parseInt "0" = some 0 ∧ parseInt "-3" = some (-3) ∧ parseInt " 7" = some 7 ∧
      parseInt "+7" = some 7 ∧ parseInt "5abc" = some 5 ∧ parseInt "5.7" = some 5 ∧
      parseInt "0x10" = some 16 ∧
      (logXP nov4 nov4 annMsg "Sleep" "abc" (initStore nov4)).2
        = .error (.invalidCategory CATEGORIES) ∧
      (logXP nov4 nov4 annMsg "Workout" "abc" (initStore nov4)).2 = .error .invalidAmount ∧
      (logXP nov4 nov4 annMsg "Workout" "-3" (initStore nov4)).2 = .error .invalidAmount ∧
      (logXP nov4 nov4 annMsg "Workout" "0" (initStore nov4)).2 = .error .invalidAmount) := by
  refine ⟨?_, fun h => logXP_of_noCategory now today msg match1 match2 s h, by decide⟩
  rintro ⟨c, hc⟩
  have hbad : (parseInt match2 = none ∨ ∃ xp, parseInt match2 = some xp ∧ xp ≤ 0) →
      logXP now today msg match1 match2 s
        = (checkMonthlyReset now s, .error .invalidAmount) := by
    rintro (h | ⟨xp, h, hle⟩)
    · exact logXP_of_nan now today msg match1 match2 s hc h
    · exact logXP_of_nonpos now today msg match1 match2 s hc h hle
  have hgood : ∀ xp, parseInt match2 = some xp → 0 < xp →
      (∃ r, (logXP now today msg match1 match2 s).2 = .ok r ∧ r.xp = xp) ∨
      (∃ c a, (logXP now today msg match1 match2 s).2
        = .error (.dailyLimit c DAILY_XP_LIMIT a)) := by
    intro xp hx hpos
    by_cases hover : usedToday now today msg c s + xp > DAILY_XP_LIMIT
    · right
      exact ⟨c, _, by rw [logXP_of_over now today msg match1 match2 s hc hx hpos hover]⟩
    · left
      rw [logXP_of_fits now today msg match1 match2 s hc hx hpos (not_lt.mp hover)]
      exact ⟨_, rfl, rfl⟩
  refine ⟨⟨?_, fun h => by rw [hbad h]⟩, hbad, hgood⟩
  intro h
  cases hx : parseInt match2 with
  | none => exact Or.inl rfl
  | some xp =>
    right
    refine ⟨xp, rfl, ?_⟩
    by_contra hpos
    rcases hgood xp hx (not_le.mp hpos) with ⟨r, hr, _⟩ | ⟨c', a, hr⟩
    · rw [hr] at h; cases h
    · rw [hr] at h; cases h

/-- Witness for C17 (amended): the amount text `-3` with a valid category. -/
theorem amount_validation_witness :
    logXP nov4 nov4 annMsg "Workout" "-3" novStore
      = (checkMonthlyReset nov4 novStore, .error .invalidAmount) :=
  ((amount_validation nov4 nov4 annMsg "Workout" "-3" novStore).1 ⟨"Workout", by decide⟩).2.1
    (Or.inr ⟨-3, by decide, by decide⟩)

/-! ## C18: the ten best -/

theorem not_mem_keys_of_objGet_none {id : Int} {users : List (Int × UserRecord)}
    (h : objGet id users = none) : id ∉ users.map Prod.fst := by
  induction users with
  | nil => simp
  | cons e rest ih =>
    obtain ⟨k, v⟩ := e
    by_cases hk : k = id
    · simp [objGet, hk] at h
    · simp only [objGet, hk, if_false] at h
      simp only [List.map_cons, List.mem_cons, not_or]
      exact ⟨fun e => hk e.symm, ih h⟩

theorem usersCreate_perm (id : Int) (r : UserRecord) (users : List (Int × UserRecord)) :
    (usersCreate id r users).Perm ((id, r) :: users) := by
  induction users with
  | nil => simp [usersCreate]
  | cons e rest ih =>
    obtain ⟨k, v⟩ := e
    simp only [usersCreate]
    split
    · exact List.Perm.refl _
    · exact (List.Perm.cons _ ih).trans (List.Perm.swap _ _ _)

theorem keysDistinct_usersCreate {id : Int} (r : UserRecord) {users : List (Int × UserRecord)}
    (hnone : objGet id users = none) (h : KeysDistinct users) :
    KeysDistinct (usersCreate id r users) := by
  unfold KeysDistinct at h ⊢
  have hp := (usersCreate_perm id r users).map Prod.fst
  rw [hp.nodup_iff]
  simp only [List.map_cons, List.nodup_cons]
  exact ⟨not_mem_keys_of_objGet_none hnone, h⟩

theorem keysDistinct_checkMonthlyReset (now : Date) {s : Store} (h : KeysDistinct s.users) :
    KeysDistinct (checkMonthlyReset now s).users := by
  rcases checkMonthlyReset_users now s with h1 | h1
  · rw [h1]; exact h
  · rw [h1]
    unfold KeysDistinct at h ⊢
    simpa [List.map_map, Function.comp_def] using h

theorem keysDistinct_ensureUser (msg : Message) {users : List (Int × UserRecord)}
    (h : KeysDistinct users) : KeysDistinct (ensureUser msg users).1 := by
  unfold ensureUser
  cases hg : objGet msg.chatId users with
  | none => exact keysDistinct_usersCreate _ hg h
  | some u => exact h

theorem keysDistinct_objModify (id : Int) (f : UserRecord → UserRecord)
    {users : List (Int × UserRecord)} (h : KeysDistinct users) :
    KeysDistinct (objModify id f users) := by
  unfold KeysDistinct at h ⊢
  rw [map_fst_objModify]
  exact h

theorem keysDistinct_step {s : Store} (h : KeysDistinct s.users) (op : Op) :
    KeysDistinct (step s op).users := by
  cases op with
  | start msg =>
    simp only [step, start]
    split
    · rename_i hnone
      exact keysDistinct_usersCreate _ (Option.isNone_iff_eq_none.mp hnone) h
    · exact h
  | logXP now today msg match1 match2 =>
    have h1 := keysDistinct_checkMonthlyReset now h
    have h2 : KeysDistinct (afterLimitCheck now today msg s).users :=
      keysDistinct_objModify _ _ (keysDistinct_ensureUser msg h1)
    simp only [step]
    rcases logXP_cases now today msg match1 match2 s with
      ⟨_, eq⟩ | ⟨_, _, eq⟩ | ⟨category, xp, _, _, _, _, eq⟩ | ⟨category, xp, _, _, _, _, eq⟩
    · rw [eq]; exact h1
    · rw [eq]; exact h1
    · rw [eq]; exact h2
    · rw [eq]; exact keysDistinct_objModify _ _ h2
  | getProgress msg =>
    simp only [step, getProgress]
    split <;> exact h
  | monthlyLeaderboard now => exact keysDistinct_checkMonthlyReset now h
  | allTimeLeaderboard => exact h

theorem keysDistinct_reachable {s : Store} (h : Reachable s) : KeysDistinct s.users := by
  obtain ⟨startup, ops, rfl⟩ := h
  have key : ∀ (ops : List Op) (s0 : Store), KeysDistinct s0.users →
      KeysDistinct (run s0 ops).users := by
    intro ops
    induction ops with
    | nil => intro s0 h0; exact h0
    | cons op rest ih =>
      intro s0 h0
      exact ih _ (keysDistinct_step h0 op)
  exact key ops _ (by simp [KeysDistinct, initStore])

theorem ranking_maximal {α : Type} (key : α → Int) (xs : List α) :
    (∀ e ∈ xs, key e > 0 →
      e ∉ (jsSort (fun a b => key b - key a)
        (xs.filter (fun e => decide (key e > 0)))).take 10 →
      ∀ l ∈ (jsSort (fun a b => key b - key a)
        (xs.filter (fun e => decide (key e > 0)))).take 10, key e ≤ key l) ∧
    (xs.Nodup → ((jsSort (fun a b => key b - key a)
        (xs.filter (fun e => decide (key e > 0)))).take 10).Nodup) := by
  constructor
  · intro e he hpos hnot l hl
    have hmem : e ∈ jsSort (fun a b => key b - key a)
        (xs.filter (fun e => decide (key e > 0))) := by
      rw [(jsSort_perm _ _).mem_iff]
      simp [he, hpos]
    rw [← List.take_append_drop 10 (jsSort (fun a b => key b - key a)
      (xs.filter (fun e => decide (key e > 0))))] at hmem
    have hdrop : e ∈ (jsSort (fun a b => key b - key a)
        (xs.filter (fun e => decide (key e > 0)))).drop 10 := by
      rcases List.mem_append.mp hmem with h1 | h1
      · exact absurd h1 hnot
      · exact h1
    have hsorted := jsSort_pairwise key (xs.filter (fun e => decide (key e > 0)))
    rw [← List.take_append_drop 10 (jsSort (fun a b => key b - key a)
      (xs.filter (fun e => decide (key e > 0)))), List.pairwise_append] at hsorted
    exact hsorted.2.2 l hl e hdrop
  · intro hnd
    have h1 : (xs.filter (fun e => decide (key e > 0))).Nodup := hnd.filter _
    have h2 := (jsSort_perm (fun a b => key b - key a)
      (xs.filter (fun e => decide (key e > 0)))).nodup_iff.mpr h1
    exact h2.sublist (List.take_sublist _ _)

theorem nodup_of_keysDistinct {users : List (Int × UserRecord)} (h : KeysDistinct users) :
    users.Nodup :=
  List.Nodup.of_map Prod.fst h

theorem ranking_is_sorted_take {α : Type} (key : α → Int) (xs : List α) :
    ∃ sorted : List α,
      (jsSort (fun a b => key b - key a) (xs.filter (fun e => decide (key e > 0)))).take 10
        = sorted.take 10 ∧
      sorted.Perm (xs.filter (fun e => decide (key e > 0))) ∧
      sorted.Pairwise (fun a b => key a ≥ key b) ∧
      ∀ v, sorted.filter (fun e => decide (key e = v))
        = (xs.filter (fun e => decide (key e > 0))).filter (fun e => decide (key e = v)) :=
  ⟨_, rfl, jsSort_perm _ _, jsSort_pairwise key _, fun v => jsSort_stable key _ v⟩

/-- Claim C18. Let `/monthly` be called at the reading `now` on a store `s`
whose chat ids are distinct (as they are in every reachable state). It leaves
the state `checkMonthlyReset now s`, and its board is the first 10 entries of
a list that rearranges the records of that state with `monthlyXP` above 0, in
non-increasing order of XP, with records of equal XP in the order of the
table; when the marker of `s` is the current month that state is `s` itself,
and when it differs the board is empty. In every case, each record of `s` (and
of the state left) with positive `monthlyXP` that is missing from the board
has at most the XP of every listed entry, and every listed entry is a record
of `s` (and of the state left), listed once. The same holds of `/alltime` with
`totalXP` and the records of `s`, which it leaves unchanged. -/
theorem top_ten_maximal (now : Date) (s : Store) (h : KeysDistinct s.users) :
    ((monthlyLeaderboard now s).1 = checkMonthlyReset now s ∧
      (∀ e ∈ s.users, e.2.monthlyXP > 0 → e ∉ (monthlyLeaderboard now s).2 →
        ∀ l ∈ (monthlyLeaderboard now s).2, e.2.monthlyXP ≤ l.2.monthlyXP) ∧
      (∀ l ∈ (monthlyLeaderboard now s).2, l ∈ s.users) ∧
      (∀ e ∈ (checkMonthlyReset now s).users, e.2.monthlyXP > 0 →
        e ∉ (monthlyLeaderboard now s).2 →
        ∀ l ∈ (monthlyLeaderboard now s).2, e.2.monthlyXP ≤ l.2.monthlyXP) ∧
      (∀ l ∈ (monthlyLeaderboard now s).2, l ∈ (checkMonthlyReset now s).users) ∧
      (monthlyLeaderboard now s).2.Nodup ∧
      (∃ sorted : List (Int × UserRecord),
        (monthlyLeaderboard now s).2 = sorted.take 10 ∧
        sorted.Perm ((checkMonthlyReset now s).users.filter
          (fun e => decide (e.2.monthlyXP > 0))) ∧
        sorted.Pairwise (fun a b => a.2.monthlyXP ≥ b.2.monthlyXP) ∧
        ∀ v, sorted.filter (fun e => decide (e.2.monthlyXP = v))
          = ((checkMonthlyReset now s).users.filter
              (fun e => decide (e.2.monthlyXP > 0))).filter
                (fun e => decide (e.2.monthlyXP = v))) ∧
      (now.getMonth = s.currentMonth →
        ∃ sorted : List (Int × UserRecord),
          (monthlyLeaderboard now s).2 = sorted.take 10 ∧
          sorted.Perm (s.users.filter (fun e => decide (e.2.monthlyXP > 0))) ∧
          sorted.Pairwise (fun a b => a.2.monthlyXP ≥ b.2.monthlyXP) ∧
          ∀ v, sorted.filter (fun e => decide (e.2.monthlyXP = v))
            = (s.users.filter (fun e => decide (e.2.monthlyXP > 0))).filter
                (fun e => decide (e.2.monthlyXP = v))) ∧
      (now.getMonth ≠ s.currentMonth → (monthlyLeaderboard now s).2 = [])) ∧
    ((allTimeLeaderboard s).1 = s ∧
      (∀ e ∈ s.users, e.2.totalXP > 0 → e ∉ (allTimeLeaderboard s).2 →
        ∀ l ∈ (allTimeLeaderboard s).2, e.2.totalXP ≤ l.2.totalXP) ∧
      (∀ l ∈ (allTimeLeaderboard s).2, l ∈ s.users) ∧
      (allTimeLeaderboard s).2.Nodup ∧
      ∃ sorted : List (Int × UserRecord),
        (allTimeLeaderboard s).2 = sorted.take 10 ∧
        sorted.Perm (s.users.filter (fun e => decide (e.2.totalXP > 0))) ∧
        sorted.Pairwise (fun a b => a.2.totalXP ≥ b.2.totalXP) ∧
        ∀ v, sorted.filter (fun e => decide (e.2.totalXP = v))
          = (s.users.filter (fun e => decide (e.2.totalXP > 0))).filter
              (fun e => decide (e.2.totalXP = v))) := by
  have h1 := keysDistinct_checkMonthlyReset now h
  have hboard : (monthlyLeaderboard now s).2 = sortedMonthly (checkMonthlyReset now s).users :=
    rfl
  have hm := ranking_maximal (fun e : Int × UserRecord => e.2.monthlyXP)
    (checkMonthlyReset now s).users
  have hmem : ∀ l ∈ (monthlyLeaderboard now s).2, l ∈ (checkMonthlyReset now s).users :=
    fun l hl => ((ranking_order (fun e : Int × UserRecord => e.2.monthlyXP)
      (checkMonthlyReset now s).users).1 l hl).1
  have hsorted := ranking_is_sorted_take (fun e : Int × UserRecord => e.2.monthlyXP)
    (checkMonthlyReset now s).users
  constructor
  · refine ⟨rfl, ?_, ?_, hm.1, hmem, hm.2 (nodup_of_keysDistinct h1), hsorted, ?_, ?_⟩
    · by_cases hcur : now.getMonth = s.currentMonth
      · have hm1 := hm.1
        rw [checkMonthlyReset_of_current hcur] at hm1
        intro e he hpos hnot l hl
        rw [hboard, checkMonthlyReset_of_current hcur] at hnot hl
        exact hm1 e he hpos hnot l hl
      · intro e _ _ _ l hl
        rw [hboard, sortedMonthly_after_rollover now s hcur] at hl
        cases hl
    · by_cases hcur : now.getMonth = s.currentMonth
      · intro l hl
        have := hmem l hl
        rwa [checkMonthlyReset_of_current hcur] at this
      · intro l hl
        rw [hboard, sortedMonthly_after_rollover now s hcur] at hl
        cases hl
    · intro hcur
      have hs := hsorted
      rw [checkMonthlyReset_of_current hcur] at hs
      obtain ⟨sorted, e1, e2, e3, e4⟩ := hs
      refine ⟨sorted, ?_, e2, e3, e4⟩
      rw [hboard, checkMonthlyReset_of_current hcur]
      exact e1
    · intro hroll
      exact sortedMonthly_after_rollover now s hroll
  · have ha := ranking_maximal (fun e : Int × UserRecord => e.2.totalXP) s.users
    exact ⟨rfl, ha.1,
      fun l hl => ((ranking_order (fun e : Int × UserRecord => e.2.totalXP) s.users).1 l hl).1,
      ha.2 (nodup_of_keysDistinct h),
      ranking_is_sorted_take (fun e : Int × UserRecord => e.2.totalXP) s.users⟩

/-- Witness for C18: the table of fifteen users read in the month of the
marker; the five with the least monthly XP stay off the board of `/monthly`. -/
theorem top_ten_maximal_witness :
    (monthlyLeaderboard nov4 { users := fifteenUsers, currentMonth := 10 }).1
        = checkMonthlyReset nov4 { users := fifteenUsers, currentMonth := 10 } ∧
      (∀ e ∈ fifteenUsers, e.2.monthlyXP > 0 →
        e ∉ (monthlyLeaderboard nov4 { users := fifteenUsers, currentMonth := 10 }).2 →
        ∀ l ∈ (monthlyLeaderboard nov4 { users := fifteenUsers, currentMonth := 10 }).2,
          e.2.monthlyXP ≤ l.2.monthlyXP) ∧
      (∀ l ∈ (monthlyLeaderboard nov4 { users := fifteenUsers, currentMonth := 10 }).2,
        l ∈ fifteenUsers) :=
  ⟨(top_ten_maximal nov4 { users := fifteenUsers, currentMonth := 10 }
      (by unfold KeysDistinct; decide)).1.1,
   (top_ten_maximal nov4 { users := fifteenUsers, currentMonth := 10 }
      (by unfold KeysDistinct; decide)).1.2.1,
   (top_ten_maximal nov4 { users := fifteenUsers, currentMonth := 10 }
      (by unfold KeysDistinct; decide)).1.2.2.1⟩

/-! ## C19: monthly XP never exceed total XP -/

/-- Claim C19. In every reachable state every record has
`0 ≤ monthlyXP ≤ totalXP`: a fresh record holds 0 and 0, an accepted `/log`
adds the same positive amount to both, and the reset puts `monthlyXP` alone
back to 0. The reset is the whole state change of `/monthly` and the first
step of `/log`, so the reachable states cover it. -/
theorem monthly_le_total (s : Store) (h : Reachable s) (id : Int) (u : UserRecord)
    (hu : (id, u) ∈ s.users) : 0 ≤ u.monthlyXP ∧ u.monthlyXP ≤ u.totalXP :=
  records_reachable (fun r => 0 ≤ r.monthlyXP ∧ r.monthlyXP ≤ r.totalXP)
    (fun _ => ⟨le_refl _, le_refl _⟩)
    (fun r hr => ⟨le_refl _, le_trans hr.1 hr.2⟩)
    (fun _ _ hr => hr)
    (fun t c xp r hr hpos _ _ => by
      show 0 ≤ r.monthlyXP + xp ∧ r.monthlyXP + xp ≤ r.totalXP + xp
      omega)
    h (id, u) hu

/-- Witness for C19: 15 XP logged in November, then `/monthly` in December,
which leaves 0 XP for the month and 15 in total. -/
theorem monthly_le_total_witness : (0 : Int) ≤ 0 ∧ (0 : Int) ≤ 15 :=
  monthly_le_total
    (run (initStore nov4)
      [Op.logXP nov4 nov4 annMsg "workout" "15", Op.monthlyLeaderboard dec1])
    ⟨nov4, _, rfl⟩ 1
    { totalXP := 15, monthlyXP := 0, dailyXP := [], username := "ann" } (by decide)


/-! ## C20: monthly XP are the sum of the daily XP -/

theorem mem_objSet {κ ν : Type} [DecidableEq κ] {k : κ} {v : ν} {o : List (κ × ν)}
    {e : κ × ν} (h : e ∈ objSet k v o) : e ∈ o ∨ e = (k, v) := by
  induction o with
  | nil =>
    simp only [objSet, List.mem_singleton] at h
    exact Or.inr h
  | cons e0 rest ih =>
    obtain ⟨k', v'⟩ := e0
    by_cases h1 : k' = k
    · simp only [objSet, h1, if_true, List.mem_cons] at h
      rcases h with h | h
      · exact Or.inr h
      · exact Or.inl (by simp [h])
    · simp only [objSet, h1, if_false, List.mem_cons] at h
      rcases h with h | h
      · exact Or.inl (by simp [h])
      · rcases ih h with h2 | h2
        · exact Or.inl (by simp [h2])
        · exact Or.inr h2

theorem nodup_keys_objSet {κ ν : Type} [DecidableEq κ] (k : κ) (v : ν) {o : List (κ × ν)}
    (h : (o.map Prod.fst).Nodup) : ((objSet k v o).map Prod.fst).Nodup := by
  induction o with
  | nil => simp [objSet]
  | cons e0 rest ih =>
    obtain ⟨k', v'⟩ := e0
    simp only [List.map_cons, List.nodup_cons] at h
    by_cases h1 : k' = k
    · subst h1
      simp only [objSet, if_true, List.map_cons, List.nodup_cons]
      exact h
    · simp only [objSet, h1, if_false, List.map_cons, List.nodup_cons]
      refine ⟨?_, ih h.2⟩
      intro hmem
      obtain ⟨e, he, hk⟩ := List.mem_map.mp hmem
      rcases mem_objSet he with h2 | h2
      · exact h.1 (List.mem_map.mpr ⟨e, h2, hk⟩)
      · subst h2
        exact h1 hk.symm

theorem categorySum_objSet (c : String) (v : Int) (m : List (String × Int)) :
    categorySum (objSet c v m) = categorySum m - (objGet c m).getD 0 + v := by
  induction m with
  | nil => simp [objSet, objGet, categorySum]
  | cons e0 rest ih =>
    obtain ⟨k', v'⟩ := e0
    by_cases h1 : k' = c
    · simp only [objSet, objGet, h1, if_true, categorySum, List.map_cons, List.sum_cons,
        Option.getD_some]
      omega
    · simp only [objSet, objGet, h1, if_false]
      simp only [categorySum, List.map_cons, List.sum_cons] at ih ⊢
      omega

theorem dailySum_objModify (t : String) (f : List (String × Int) → List (String × Int))
    {o : List (String × List (String × Int))} {m : List (String × Int)}
    (h : objGet t o = some m) :
    dailySum (objModify t f o) = dailySum o - categorySum m + categorySum (f m) := by
  induction o with
  | nil => simp [objGet] at h
  | cons e0 rest ih =>
    obtain ⟨k', v'⟩ := e0
    by_cases h1 : k' = t
    · simp only [objGet, h1, if_true, Option.some.injEq] at h
      subst h
      simp only [objModify, h1, if_true, dailySum, List.map_cons, List.sum_cons]
      omega
    · simp only [objGet, h1, if_false] at h
      have ih1 := ih h
      simp only [objModify, h1, if_false]
      simp only [dailySum, List.map_cons, List.sum_cons] at ih1 ⊢
      omega

theorem dailySum_objSet_new (t : String) (m : List (String × Int))
    {o : List (String × List (String × Int))} (h : objGet t o = none) :
    dailySum (objSet t m o) = dailySum o + categorySum m := by
  induction o with
  | nil => simp [objSet, dailySum]
  | cons e0 rest ih =>
    obtain ⟨k', v'⟩ := e0
    by_cases h1 : k' = t
    · simp [objGet, h1] at h
    · simp only [objGet, h1, if_false] at h
      have ih1 := ih h
      simp only [objSet, h1, if_false]
      simp only [dailySum, List.map_cons, List.sum_cons] at ih1 ⊢
      omega

theorem ensureDay_dailyXP (t : String) (u : UserRecord) :
    ((ensureDay t u).dailyXP = u.dailyXP ∧ (objGet t u.dailyXP).isSome) ∨
      ((ensureDay t u).dailyXP = objSet t [] u.dailyXP ∧ objGet t u.dailyXP = none) := by
  cases h : objGet t u.dailyXP with
  | none => exact Or.inr ⟨by simp [ensureDay, h], rfl⟩
  | some m => exact Or.inl ⟨by simp [ensureDay, h, objSet_of_objGet h], rfl⟩

theorem dailySum_ensureDay (t : String) (u : UserRecord) :
    dailySum (ensureDay t u).dailyXP = dailySum u.dailyXP := by
  rcases ensureDay_dailyXP t u with ⟨h, _⟩ | ⟨h, hnone⟩
  · rw [h]
  · rw [h, dailySum_objSet_new t [] hnone]
    simp [categorySum]

theorem dailyKeysDistinct_ensureDay (t : String) {u : UserRecord}
    (h : DailyKeysDistinct u.dailyXP) : DailyKeysDistinct (ensureDay t u).dailyXP := by
  rcases ensureDay_dailyXP t u with ⟨h1, _⟩ | ⟨h1, _⟩
  · rw [h1]; exact h
  · rw [h1]
    refine ⟨nodup_keys_objSet t [] h.1, ?_⟩
    intro e he
    rcases mem_objSet he with h2 | h2
    · exact h.2 e h2
    · subst h2
      simp

theorem dailySum_addXP {t : String} {u : UserRecord} (c : String) (xp : Int)
    (hsome : (objGet t u.dailyXP).isSome) :
    dailySum (addXP t c (usage u.dailyXP t c) xp u).dailyXP = dailySum u.dailyXP + xp := by
  obtain ⟨m, hm⟩ := Option.isSome_iff_exists.mp hsome
  have hsum := dailySum_objModify t (objSet c (usage u.dailyXP t c + xp)) hm
  have hcat := categorySum_objSet c (usage u.dailyXP t c + xp) m
  have huse : usage u.dailyXP t c = (objGet c m).getD 0 := by simp [usage, hm]
  show dailySum (objModify t (objSet c (usage u.dailyXP t c + xp)) u.dailyXP)
    = dailySum u.dailyXP + xp
  omega

theorem dailyKeysDistinct_addXP {t : String} {u : UserRecord} (c : String) (dx xp : Int)
    (h : DailyKeysDistinct u.dailyXP) : DailyKeysDistinct (addXP t c dx xp u).dailyXP := by
  show DailyKeysDistinct (objModify t (objSet c (dx + xp)) u.dailyXP)
  refine ⟨by rw [map_fst_objModify]; exact h.1, ?_⟩
  intro e he
  rcases mem_objModify he with h2 | ⟨m, hm, rfl⟩
  · exact h.2 e h2
  · exact nodup_keys_objSet c (dx + xp) (h.2 _ (objGet_mem hm))

theorem objGet_of_mem_nodup {κ ν : Type} [DecidableEq κ] {k : κ} {v : ν} {o : List (κ × ν)}
    (hnd : (o.map Prod.fst).Nodup) (h : (k, v) ∈ o) : objGet k o = some v := by
  induction o with
  | nil => simp at h
  | cons e0 rest ih =>
    obtain ⟨k', v'⟩ := e0
    simp only [List.map_cons, List.nodup_cons] at hnd
    simp only [List.mem_cons, Prod.mk.injEq] at h
    rcases h with ⟨rfl, rfl⟩ | h
    · simp [objGet]
    · have hne : k' ≠ k := by
        intro e
        subst e
        exact hnd.1 (List.mem_map.mpr ⟨(k', v), h, rfl⟩)
      simp only [objGet, hne, if_false]
      exact ih hnd.2 h

theorem usage_of_mem {dailyXP : List (String × List (String × Int))}
    (h : DailyKeysDistinct dailyXP) {d c : String} {m : List (String × Int)} {v : Int}
    (hd : (d, m) ∈ dailyXP) (hc : (c, v) ∈ m) : usage dailyXP d c = v := by
  have h1 := objGet_of_mem_nodup h.1 hd
  have h2 := objGet_of_mem_nodup (h.2 _ hd) hc
  simp [usage, h1, h2]

/-- Claim C20. In every reachable state, for every record, `monthlyXP` is the
sum of the XP held in `dailyXP`, over all its days and all their categories.
The days of `dailyXP` and the categories of each day are listed once each, so
that the summands are exactly the readings `dailyXP[d][c]` of the keys present. -/
theorem monthly_is_daily_sum (s : Store) (h : Reachable s) (id : Int) (u : UserRecord)
    (hu : (id, u) ∈ s.users) :
    u.monthlyXP = dailySum u.dailyXP ∧
    DailyKeysDistinct u.dailyXP ∧
    (∀ d m c v, (d, m) ∈ u.dailyXP → (c, v) ∈ m → usage u.dailyXP d c = v) := by
  have key := records_reachable
    (fun r => r.monthlyXP = dailySum r.dailyXP ∧ DailyKeysDistinct r.dailyXP)
    (fun _ => ⟨rfl, by simp [newUser, DailyKeysDistinct]⟩)
    (fun r _ => ⟨rfl, by simp [resetRecord, DailyKeysDistinct]⟩)
    (fun t r hr => ⟨by rw [dailySum_ensureDay]; exact hr.1, dailyKeysDistinct_ensureDay t hr.2⟩)
    (fun t c xp r hr _ hsome _ =>
      ⟨by
        rw [dailySum_addXP c xp hsome, ← hr.1]
        rfl,
       dailyKeysDistinct_addXP c _ xp hr.2⟩)
    h (id, u) hu
  exact ⟨key.1, key.2, fun d m c v hd hc => usage_of_mem key.2 hd hc⟩

/-- Witness for C20: 15 XP of Workout and 5 of Hobby on one day make 20 for
the month. -/
theorem monthly_is_daily_sum_witness :
    (20 : Int) = dailySum [("Wed Nov 04 2026", [("Workout", 15), ("Hobby", 5)])] ∧
      DailyKeysDistinct [("Wed Nov 04 2026", [("Workout", 15), ("Hobby", 5)])] ∧
      (∀ d m c v, (d, m) ∈ [("Wed Nov 04 2026", [("Workout", (15 : Int)), ("Hobby", 5)])] →
        (c, v) ∈ m →
        usage [("Wed Nov 04 2026", [("Workout", 15), ("Hobby", 5)])] d c = v) :=
  monthly_is_daily_sum
    (run (initStore nov4)
      [Op.logXP nov4 nov4 annMsg "workout" "15", Op.logXP nov4 nov4 annMsg "hobby" "5"])
    ⟨nov4, _, rfl⟩ 1
    { totalXP := 20, monthlyXP := 20,
      dailyXP := [("Wed Nov 04 2026", [("Workout", 15), ("Hobby", 5)])], username := "ann" }
    (by decide)

end WizardXp
